import Mathlib

/-!
# Verification of the MMapper telnet protocol engine

Shallow embedding of `src/proxy/AbstractTelnet.cpp` (class `AbstractTelnet`):
the inbound byte FSM (`onReadInternal`, `onReadInternal2`), the option
negotiator (`processTelnetCommand`), the subnegotiation handlers
(`processTelnetSubnegotiation`), the outbound framer (`TelnetFormatter`,
`submitOverTelnet`), and the MCCPv2 decompression shim
(`onReadInternalInflate`, `initCompress`, `resetCompress`).

Modelling conventions:
* Bytes are `Nat` values in `0..255`; all inputs the engine sees arrive as
  `unsigned char`, so no wrap-around arithmetic is needed.
* `QByteArray`/`AppendBuffer` buffers are `List Nat`.
* The four `std::array<bool, 256>` option tables are `Nat → Bool` functions
  updated pointwise.
* Transport writes (`sendRawData`) are accumulated in a `sent` trace; host
  callbacks (`receiveEchoMode`, `receiveTerminalType`, `receiveWindowSize`,
  `receiveGmcpMessage`, `onGmcpEnabled`) and the hand-off of protocol units
  to the negotiator are recorded in an `events` trace.
* The C++ member `recvdGA` is threaded through the byte-processing functions
  as an explicit boolean value (the reader loops read and reset it exactly
  where the C++ does); `sendToMapper` flushes are collected in a `flushes`
  list threaded through the reader loops.
* C++ exceptions that escape the engine (the `abort()` on CHARSET
  `TTABLE_IS`, the `std::runtime_error` on a zlib failure) are modelled by a
  `fatal : Option String` field: once set, the reader loops stop, mirroring
  stack unwinding.  At a public entry point the field is `none` (a caught
  exception does not persist in the object).
* zlib's `inflate` is an external library; it is abstracted as an oracle
  mapping a call counter and the raw input to the inflated output bytes, the
  return code of the final `inflate` call, and `stream.msg`.
-/

namespace Telnet

/-- Telnet command bytes (RFC 854), as in `AbstractTelnet.h`; the values are
restated in the spec (§4.1) and used literally in its scenarios. -/
def TN_SE : Nat := 240

def TN_NOP : Nat := 241

def TN_DM : Nat := 242

def TN_B : Nat := 243

def TN_IP : Nat := 244

def TN_AO : Nat := 245

def TN_AYT : Nat := 246

def TN_EC : Nat := 247

def TN_EL : Nat := 248

def TN_GA : Nat := 249

def TN_SB : Nat := 250

def TN_WILL : Nat := 251

def TN_WONT : Nat := 252

def TN_DO : Nat := 253

def TN_DONT : Nat := 254

def TN_IAC : Nat := 255

/-- Telnet option codes, as listed in spec §3. -/
def OPT_ECHO : Nat := 1

def OPT_SUPPRESS_GA : Nat := 3

def OPT_STATUS : Nat := 5

def OPT_TIMING_MARK : Nat := 6

def OPT_TERMINAL_TYPE : Nat := 24

def OPT_NAWS : Nat := 31

def OPT_CHARSET : Nat := 42

def OPT_COMPRESS2 : Nat := 86

def OPT_GMCP : Nat := 201

/-- Subnegotiation verb bytes (`TNSB_*`); `SEND` and `REQUEST` share value 1
(the source notes the conflict). -/
def TNSB_IS : Nat := 0

def TNSB_SEND : Nat := 1

def TNSB_REQUEST : Nat := 1

def TNSB_ACCEPTED : Nat := 2

def TNSB_REJECTED : Nat := 3

def TNSB_TTABLE_IS : Nat := 4

/-- Size of the option tables (`NUM_OPTS`); spec §3: four tables of length 256. -/
def NUM_OPTS : Nat := 256

/-- `DEFAULT_GMCP_MODULE_VERSION`: spec §3 keeps `supported[module_type] =
version_or_zero`, so the default version is zero. -/
def DEFAULT_GMCP_MODULE_VERSION : Nat := 0

/-- The build we model has zlib compiled in (`MMAPPER_NO_ZLIB` undefined). -/
def NO_ZLIB : Bool := false

/-- The six FSM states (`TelnetStateEnum`). -/
inductive TelnetStateEnum where
  | NORMAL
  | IAC
  | COMMAND
  | SUBNEG
  | SUBNEG_IAC
  | SUBNEG_COMMAND
  deriving DecidableEq, Repr

/-- Observable engine events: protocol units handed to the negotiator and
host callbacks raised by the handlers. -/
inductive TEvent where
  | command (cmd : List Nat)
  | subnegotiation (payload : List Nat)
  | echoMode (b : Bool)
  | terminalType (t : List Nat)
  | windowSize (x y : Nat)
  | gmcpMsg (raw : List Nat)
  | gmcpOn
  deriving DecidableEq, Repr

/-- Modelled from the spec: `TextCodec` (its implementation is outside the
provided sources).  Per spec §2.6/§4.6 it holds the currently selected text
encoding; `supports` tests membership in the supported-encodings list and
`setEncodingForName` selects an encoding (§4.3 CHARSET handler).  Encoding
names are byte strings. -/
structure TextCodec where
  supportedEncodings : List (List Nat)
  encoding : List Nat
  deriving DecidableEq, Repr

/-- `TextCodec::supports`: the name is one of the supported encodings. -/
def supports (tc : TextCodec) (cs : List Nat) : Bool :=
  tc.supportedEncodings.contains cs

/-- `TextCodec::setEncodingForName`. -/
def setEncodingForName (tc : TextCodec) (cs : List Nat) : TextCodec :=
  { tc with encoding := cs }

/-- Modelled from the spec: `GmcpModule` (implementation outside the provided
sources).  Spec §3: "A dotted name plus optional integer version"; modules of
a recognized top-level type carry that type (`mtype`), others do not.  Module
types form a closed enum supplied by the host; we model them as `Nat`. -/
structure GmcpModule where
  name : List Nat
  version : Option Nat
  mtype : Option Nat
  deriving DecidableEq, Repr

/-- `GmcpModule::hasVersion`. -/
def GmcpModule.hasVersion (m : GmcpModule) : Bool :=
  m.version.isSome

/-- `GmcpModule::isSupported`: the module's top-level type is recognized. -/
def GmcpModule.isSupported (m : GmcpModule) : Bool :=
  m.mtype.isSome

/-- `GmcpModule::getVersion`. -/
def GmcpModule.getVersion (m : GmcpModule) : Nat :=
  m.version.getD 0

/-- `GmcpModule::getType`. -/
def GmcpModule.getType (m : GmcpModule) : Nat :=
  m.mtype.getD 0

/-- The engine's GMCP bookkeeping: `gmcp.supported` (version-or-zero per
module type) and `gmcp.modules` (the set of modules the peer enabled; spec
§3: set equality is on the full name). -/
structure GmcpData where
  supported : Nat → Nat
  modules : List GmcpModule

/-- Insertion into the name-keyed module set. -/
def insertModule (ms : List GmcpModule) (m : GmcpModule) : List GmcpModule :=
  if ms.any (fun x => x.name == m.name) then ms else ms ++ [m]

/-- Removal from the name-keyed module set. -/
def eraseModule (ms : List GmcpModule) (m : GmcpModule) : List GmcpModule :=
  ms.filter (fun x => !(x.name == m.name))

/-- Pointwise update of a boolean option table. -/
def upd (f : Nat → Bool) (i : Nat) (v : Bool) : Nat → Bool :=
  fun j => if j = i then v else f j

/-- Pointwise update of the GMCP supported-version table. -/
def updN (f : Nat → Nat) (i v : Nat) : Nat → Nat :=
  fun j => if j = i then v else f j

/-- The connection state of `AbstractTelnet` (spec §3 "Connection state"),
plus the observation traces (`sent`, `events`) and the `fatal` exception
marker described in the module docstring. -/
structure State where
  myOptionState : Nat → Bool
  hisOptionState : Nat → Bool
  announcedState : Nat → Bool
  heAnnouncedState : Nat → Bool
  termType : List Nat
  defaultTermType : List Nat
  state : TelnetStateEnum
  commandBuffer : List Nat
  subnegBuffer : List Nat
  gmcp : GmcpData
  textCodec : TextCodec
  curX : Int
  curY : Int
  debug : Bool
  inflateTelnet : Bool
  recvdCompress : Bool
  zcalls : Nat
  sent : List Nat
  events : List TEvent
  fatal : Option String

/-- The state of a freshly constructed engine (the constructor calls
`reset()`): all option tables false, FSM in `NORMAL`, buffers empty,
GMCP tables cleared, compression off. -/
def initialState (tc : TextCodec) (tt : List Nat) (dbg : Bool) (x y : Int) : State where
  myOptionState := fun _ => false
  hisOptionState := fun _ => false
  announcedState := fun _ => false
  heAnnouncedState := fun _ => false
  termType := tt
  defaultTermType := tt
  state := TelnetStateEnum.NORMAL
  commandBuffer := []
  subnegBuffer := []
  gmcp := { supported := fun _ => DEFAULT_GMCP_MODULE_VERSION, modules := [] }
  textCodec := tc
  curX := x
  curY := y
  debug := dbg
  inflateTelnet := false
  recvdCompress := false
  zcalls := 0
  sent := []
  events := []
  fatal := none

/-- `AbstractTelnet::receiveGmcpModule`; `throw std::runtime_error("missing
version")` is modelled as `Except.error`, so the error leaves the GMCP state
untouched (`GmcpModule` accessors are spec-modelled, see above). -/
def receiveGmcpModule (g : GmcpData) (m : GmcpModule) (enabled : Bool) :
    Except String GmcpData :=
  if enabled then
    if m.hasVersion = false then Except.error "missing version"
    else
      let g := { g with modules := insertModule g.modules m }
      if m.isSupported then
        Except.ok { g with supported := updN g.supported m.getType m.getVersion }
      else Except.ok g
  else
    let g := { g with modules := eraseModule g.modules m }
    if m.isSupported then
      Except.ok
        { g with supported := updN g.supported m.getType DEFAULT_GMCP_MODULE_VERSION }
    else Except.ok g

/-- `AbstractTelnet::isGmcpModuleEnabled`. -/
def isGmcpModuleEnabled (st : State) (name : Nat) : Bool :=
  if st.myOptionState OPT_GMCP = false then false
  else st.gmcp.supported name != DEFAULT_GMCP_MODULE_VERSION

/-- `sendRawData` (pure virtual transport sink): append to the wire trace. -/
def sendRawData (st : State) (bytes : List Nat) : State :=
  { st with sent := st.sent ++ bytes }

/-- `containsIAC`. -/
def containsIAC (arr : List Nat) : Bool :=
  arr.any (fun c => c == TN_IAC)

/-- `TelnetFormatter::addEscaped`: emit the byte, doubled when it is IAC. -/
def addEscaped (b : Nat) : List Nat :=
  if b = TN_IAC then [b, b] else [b]

/-- `TelnetFormatter::addEscapedBytes`. -/
def addEscapedBytes (s : List Nat) : List Nat :=
  s.flatMap addEscaped

/-- `TelnetFormatter::addClampedTwoByteEscaped`: clamp to `[0, 65535]`, then
emit high and low byte, each IAC-escaped (network order is big-endian). -/
def addClampedTwoByteEscaped (n : Int) : List Nat :=
  let m := (min (max n 0) 65535).toNat
  addEscaped (m / 256) ++ addEscaped (m % 256)

/-- `AbstractTelnet::submitOverTelnet`: double IAC bytes when present, append
`IAC GA` unless suppressed, send over the raw transport. -/
def submitOverTelnet (st : State) (data : List Nat) (goAhead : Bool) : State :=
  let outdata := if containsIAC data then addEscapedBytes data else data
  let outdata :=
    if goAhead && !(st.hisOptionState OPT_SUPPRESS_GA) then
      outdata ++ [TN_IAC, TN_GA]
    else outdata
  sendRawData st outdata

/-- Parameter section of the NAWS subnegotiation (`sendWindowSizeChanged`). -/
def nawsBody (x y : Int) : List Nat :=
  addClampedTwoByteEscaped x ++ addClampedTwoByteEscaped y

/-- `AbstractTelnet::sendWindowSizeChanged`. -/
def sendWindowSizeChanged (st : State) (x y : Int) : State :=
  sendRawData st ([TN_IAC, TN_SB, OPT_NAWS] ++ nawsBody x y ++ [TN_IAC, TN_SE])

/-- `AbstractTelnet::sendTelnetOption`: emit `IAC <type> <opt>`. -/
def sendTelnetOption (st : State) (type option : Nat) : State :=
  sendRawData st [TN_IAC, type, option]

/-- `AbstractTelnet::requestTelnetOption`. -/
def requestTelnetOption (st : State) (type option : Nat) : State :=
  sendTelnetOption
    { st with
      myOptionState := upd st.myOptionState option true
      announcedState := upd st.announcedState option true }
    type option

/-- Parameter section of the CHARSET REQUEST subnegotiation: the `REQUEST`
byte, then `";" <charset>` for each supported encoding, IAC-escaped. -/
def charsetReqBody (sets : List (List Nat)) : List Nat :=
  [TNSB_REQUEST] ++ sets.flatMap (fun cs => addEscapedBytes [59] ++ addEscapedBytes cs)

/-- `AbstractTelnet::sendCharsetRequest`. -/
def sendCharsetRequest (st : State) (sets : List (List Nat)) : State :=
  sendRawData st ([TN_IAC, TN_SB, OPT_CHARSET] ++ charsetReqBody sets ++ [TN_IAC, TN_SE])

/-- Parameter section of the GMCP subnegotiation (`sendGmcpMessage`); the
payload (`GmcpMessage::toRawBytes`, external) is taken as raw bytes. -/
def gmcpBody (payload : List Nat) : List Nat :=
  addEscapedBytes payload

/-- `AbstractTelnet::sendGmcpMessage`. -/
def sendGmcpMessage (st : State) (payload : List Nat) : State :=
  sendRawData st ([TN_IAC, TN_SB, OPT_GMCP] ++ gmcpBody payload ++ [TN_IAC, TN_SE])

/-- Parameter section of the TERMINAL_TYPE IS subnegotiation. -/
def ttypeBody (terminalType : List Nat) : List Nat :=
  addEscaped TNSB_IS ++ addEscapedBytes terminalType

/-- `AbstractTelnet::sendTerminalType`. -/
def sendTerminalType (st : State) (terminalType : List Nat) : State :=
  sendRawData st
    ([TN_IAC, TN_SB, OPT_TERMINAL_TYPE] ++ ttypeBody terminalType ++ [TN_IAC, TN_SE])

/-- Parameter section of the CHARSET REJECTED subnegotiation. -/
def charsetRejectedBody : List Nat :=
  [TNSB_REJECTED]

/-- `AbstractTelnet::sendCharsetRejected`. -/
def sendCharsetRejected (st : State) : State :=
  sendRawData st ([TN_IAC, TN_SB, OPT_CHARSET] ++ charsetRejectedBody ++ [TN_IAC, TN_SE])

/-- Parameter section of the CHARSET ACCEPTED subnegotiation: the ACCEPTED
byte, then the (peer-derived) charset name, IAC-escaped. -/
def charsetAcceptedBody (characterSet : List Nat) : List Nat :=
  [TNSB_ACCEPTED] ++ addEscapedBytes characterSet

/-- `AbstractTelnet::sendCharsetAccepted`. -/
def sendCharsetAccepted (st : State) (characterSet : List Nat) : State :=
  sendRawData st
    ([TN_IAC, TN_SB, OPT_CHARSET] ++ charsetAcceptedBody characterSet ++ [TN_IAC, TN_SE])

/-- Loop body of `sendOptionStatus`: `WILL o` for each enabled own option,
`DO o` for each enabled peer option, over all `NUM_OPTS` codes. -/
def statusOptsBody (st : State) : List Nat :=
  (List.range NUM_OPTS).flatMap fun i =>
    (if st.myOptionState i = true then [TN_WILL, i] else [])
      ++ (if st.hisOptionState i = true then [TN_DO, i] else [])

/-- Parameter section of the STATUS IS reply (`sendOptionStatus` builds it
with raw appends, not `addEscaped`). -/
def statusBody (st : State) : List Nat :=
  [TNSB_IS] ++ statusOptsBody st

/-- `AbstractTelnet::sendOptionStatus`. -/
def sendOptionStatus (st : State) : State :=
  sendRawData st ([TN_IAC, TN_SB, OPT_STATUS] ++ statusBody st ++ [TN_IAC, TN_SE])

/-- The literal reply of `sendAreYouThere`:
the bytes of "I'm here! Please be more patient!" followed by CR LF. -/
def aytMessage : List Nat :=
  [73, 39, 109, 32, 104, 101, 114, 101, 33, 32, 80, 108, 101, 97, 115, 101, 32,
    98, 101, 32, 109, 111, 114, 101, 32, 112, 97, 116, 105, 101, 110, 116, 33, 13, 10]

/-- `AbstractTelnet::sendAreYouThere`. -/
def sendAreYouThere (st : State) : State :=
  sendRawData st aytMessage

/-- Parameter section of the TERMINAL_TYPE SEND subnegotiation. -/
def ttypeSendBody : List Nat :=
  addEscaped TNSB_SEND

/-- `AbstractTelnet::sendTerminalTypeRequest`. -/
def sendTerminalTypeRequest (st : State) : State :=
  sendRawData st ([TN_IAC, TN_SB, OPT_TERMINAL_TYPE] ++ ttypeSendBody ++ [TN_IAC, TN_SE])

/-- The WILL-acceptance set (`processTelnetCommand`, `case TN_WILL`):
`COMPRESS2` is accepted only when zlib is compiled in. -/
def willSupported (option : Nat) : Bool :=
  option = OPT_SUPPRESS_GA || option = OPT_STATUS || option = OPT_TERMINAL_TYPE
    || option = OPT_NAWS || option = OPT_ECHO || option = OPT_CHARSET
    || (option = OPT_COMPRESS2 && !NO_ZLIB) || option = OPT_GMCP

/-- The DO-acceptance set (`processTelnetCommand`, `case TN_DO`): `COMPRESS2`
is deliberately absent (peer-driven only). -/
def doSupported (option : Nat) : Bool :=
  option = OPT_SUPPRESS_GA || option = OPT_STATUS || option = OPT_TERMINAL_TYPE
    || option = OPT_NAWS || option = OPT_ECHO || option = OPT_CHARSET
    || option = OPT_GMCP

/-- `case TN_WILL` of `processTelnetCommand`. -/
def doWILL (st : State) (option : Nat) : State :=
  let st := { st with heAnnouncedState := upd st.heAnnouncedState option true }
  if st.hisOptionState option = false then
    if st.myOptionState option = false then
      if willSupported option then
        let st := sendTelnetOption st TN_DO option
        let st := { st with hisOptionState := upd st.hisOptionState option true }
        if option = OPT_ECHO then
          { st with events := st.events ++ [TEvent.echoMode false] }
        else st
      else
        let st := sendTelnetOption st TN_DONT option
        { st with hisOptionState := upd st.hisOptionState option false }
    else if st.myOptionState option = true ∧ option = OPT_TERMINAL_TYPE then
      sendTerminalTypeRequest st
    else st
  else st

/-- `case TN_WONT` of `processTelnetCommand`. -/
def doWONT (st : State) (option : Nat) : State :=
  let st :=
    if st.myOptionState option = false then
      if st.hisOptionState option = true ∨ st.heAnnouncedState option = false then
        let st := sendTelnetOption st TN_DONT option
        let st := { st with hisOptionState := upd st.hisOptionState option false }
        if option = OPT_ECHO then
          { st with events := st.events ++ [TEvent.echoMode true] }
        else st
      else st
    else st
  { st with heAnnouncedState := upd st.heAnnouncedState option true }

/-- The trailing side-effect chain of `case TN_DO` (source lines 478-492):
note that it sits outside the `!myOptionState[option]` branch, so it also
runs on a reaffirmed DO. -/
def doSideEffects (st : State) (option : Nat) : State :=
  if st.myOptionState OPT_NAWS = true ∧ option = OPT_NAWS then
    sendWindowSizeChanged st st.curX st.curY
  else if st.myOptionState OPT_CHARSET = true ∧ option = OPT_CHARSET then
    sendCharsetRequest st st.textCodec.supportedEncodings
  else if st.myOptionState OPT_COMPRESS2 = true ∧ option = OPT_COMPRESS2 ∧ NO_ZLIB = false then
    st
  else if st.myOptionState OPT_GMCP = true ∧ option = OPT_GMCP then
    { st with events := st.events ++ [TEvent.gmcpOn] }
  else st

/-- `case TN_DO` of `processTelnetCommand`. -/
def doDO (st : State) (option : Nat) : State :=
  let st :=
    if option = OPT_TIMING_MARK then sendTelnetOption st TN_WILL option
    else if st.myOptionState option = false then
      if doSupported option then
        let st := sendTelnetOption st TN_WILL option
        { st with
          myOptionState := upd st.myOptionState option true
          announcedState := upd st.announcedState option true }
      else
        let st := sendTelnetOption st TN_WONT option
        { st with
          myOptionState := upd st.myOptionState option false
          announcedState := upd st.announcedState option true }
    else st
  doSideEffects st option

/-- `case TN_DONT` of `processTelnetCommand`. -/
def doDONT (st : State) (option : Nat) : State :=
  let st :=
    if st.myOptionState option = true ∨ st.announcedState option = false then
      let st := sendTelnetOption st TN_WONT option
      { st with announcedState := upd st.announcedState option true }
    else st
  { st with myOptionState := upd st.myOptionState option false }

/-- State effect of `AbstractTelnet::processTelnetCommand` (everything except
the `recvdGA = true` assignment, which is the boolean component of
`processTelnetCommand` below).  The hand-off of the command is recorded as an
event. -/
def processTelnetCommandSt (st : State) (command : List Nat) : State :=
  let st := { st with events := st.events ++ [TEvent.command command] }
  if command.length = 2 then
    if command.getD 1 0 = TN_AYT then sendAreYouThere st else st
  else if command.length = 3 then
    let ch := command.getD 1 0
    let option := command.getD 2 0
    if ch = TN_WILL then doWILL st option
    else if ch = TN_WONT then doWONT st option
    else if ch = TN_DO then doDO st option
    else if ch = TN_DONT then doDONT st option
    else st
  else st

/-- Does this command execute `case TN_GA: recvdGA = true`? -/
def gaTrig (command : List Nat) : Bool :=
  command.length == 2 && command.getD 1 0 == TN_GA

/-- `AbstractTelnet::processTelnetCommand`: the state effect plus the
`recvdGA` member, threaded as a boolean.  `gaDetect` is `true` for the source
behaviour; `false` is the "GA detection disabled" comparison run of spec §8. -/
def processTelnetCommand (gaDetect : Bool) (st : State) (ga : Bool)
    (command : List Nat) : State × Bool :=
  (processTelnetCommandSt st command, if gaDetect && gaTrig command then true else ga)

/-- List split on a separator byte, keeping empty parts
(`QByteArray::split`). -/
def splitBy (sep : Nat) : List Nat → List (List Nat)
  | [] => [[]]
  | c :: rest =>
    if c = sep then [] :: splitBy sep rest
    else
      match splitBy sep rest with
      | [] => [[c]]
      | h :: t => (c :: h) :: t

/-- `case OPT_CHARSET` of `processTelnetSubnegotiation`.  Out-of-range
`QByteArray` reads (`payload[1]` on a short payload) hit the guaranteed null
terminator and are modelled as `getD _ 0`.  `91` is `'['` (the `[TTABLE]`
marker); the `abort()` on `TTABLE_IS` is modelled as a fatal error. -/
def charsetSubneg (st : State) (payload : List Nat) : State :=
  let sub := payload.getD 1 0
  if sub = TNSB_REQUEST then
    if 4 ≤ payload.length ∧ payload.getD 2 0 ≠ 91 then
      let sep := payload.getD 2 0
      let characterSets := splitBy sep (payload.drop 3)
      match characterSets.find? (fun cs => supports st.textCodec cs) with
      | some characterSet =>
        sendCharsetAccepted
          { st with textCodec := setEncodingForName st.textCodec characterSet }
          characterSet
      | none => sendCharsetRejected st
    else sendCharsetRejected st
  else if sub = TNSB_ACCEPTED then
    if 3 < payload.length then
      { st with textCodec := setEncodingForName st.textCodec (payload.drop 2) }
    else st
  else if sub = TNSB_REJECTED then st
  else if sub = TNSB_TTABLE_IS then { st with fatal := some "ttable-is-abort" }
  else st

/-- `AbstractTelnet::processTelnetSubnegotiation`.  The hand-off of the
payload is recorded as an event; `GmcpMessage::fromRawBytes` is external, so
the GMCP branch records the raw payload handed to `receiveGmcpMessage`
(parse failures are caught and logged in the source, never propagated). -/
def processTelnetSubnegotiation (st : State) (payload : List Nat) : State :=
  let st := { st with events := st.events ++ [TEvent.subnegotiation payload] }
  let option := payload.getD 0 0
  if option = OPT_STATUS then
    if payload.getD 1 0 = TNSB_SEND then sendOptionStatus st else st
  else if option = OPT_TERMINAL_TYPE then
    if st.myOptionState OPT_TERMINAL_TYPE = true then
      if payload.getD 1 0 = TNSB_SEND then sendTerminalType st st.termType
      else if payload.getD 1 0 = TNSB_IS then
        { st with events := st.events ++ [TEvent.terminalType (payload.drop 2)] }
      else st
    else st
  else if option = OPT_CHARSET then
    if st.myOptionState OPT_CHARSET = true then charsetSubneg st payload else st
  else if option = OPT_COMPRESS2 then
    if st.hisOptionState OPT_COMPRESS2 = true then
      if st.debug = true ∧ st.inflateTelnet = true then st
      else { st with recvdCompress := true }
    else st
  else if option = OPT_GMCP then
    if st.myOptionState OPT_GMCP = true then
      if payload.length ≤ 1 then st
      else { st with events := st.events ++ [TEvent.gmcpMsg (payload.drop 1)] }
    else st
  else if option = OPT_NAWS then
    if st.myOptionState OPT_NAWS = true then
      if payload.length = 5 then
        { st with
          events := st.events ++
            [TEvent.windowSize (payload.getD 1 0 * 256 + payload.getD 2 0)
              (payload.getD 3 0 * 256 + payload.getD 4 0)] }
      else st
    else st
  else st

/-- `AbstractTelnet::onReadInternal2`: one byte through the six-state FSM.
Arguments and results carry the clean-bytes buffer and the `recvdGA` member
(as `ga`).  In the `SUBNEG_IAC`/`SE` case the buffer clears are skipped when
the subnegotiation handler raised a fatal error (the C++ exception unwinds
past them). -/
def onReadInternal2 (gaDetect : Bool) (st : State) (clean : List Nat) (ga : Bool)
    (c : Nat) : State × List Nat × Bool :=
  match st.state with
  | TelnetStateEnum.NORMAL =>
    if c = TN_IAC then
      ({ st with state := TelnetStateEnum.IAC, commandBuffer := st.commandBuffer ++ [c] },
        clean, ga)
    else (st, clean ++ [c], ga)
  | TelnetStateEnum.IAC =>
    if c = TN_IAC then
      ({ st with state := TelnetStateEnum.NORMAL, commandBuffer := [] },
        clean ++ [c], ga)
    else if c = TN_WILL ∨ c = TN_WONT ∨ c = TN_DO ∨ c = TN_DONT then
      ({ st with state := TelnetStateEnum.COMMAND, commandBuffer := st.commandBuffer ++ [c] },
        clean, ga)
    else if c = TN_SB then
      ({ st with state := TelnetStateEnum.SUBNEG, commandBuffer := [] }, clean, ga)
    else if c = TN_SE then
      ({ st with state := TelnetStateEnum.NORMAL, commandBuffer := [] }, clean, ga)
    else
      let st := { st with state := TelnetStateEnum.NORMAL, commandBuffer := st.commandBuffer ++ [c] }
      let r := processTelnetCommand gaDetect st ga st.commandBuffer
      ({ r.1 with commandBuffer := [] }, clean, r.2)
  | TelnetStateEnum.COMMAND =>
    let st := { st with state := TelnetStateEnum.NORMAL, commandBuffer := st.commandBuffer ++ [c] }
    let r := processTelnetCommand gaDetect st ga st.commandBuffer
    ({ r.1 with commandBuffer := [] }, clean, r.2)
  | TelnetStateEnum.SUBNEG =>
    if c = TN_IAC then
      ({ st with state := TelnetStateEnum.SUBNEG_IAC, commandBuffer := st.commandBuffer ++ [c] },
        clean, ga)
    else ({ st with subnegBuffer := st.subnegBuffer ++ [c] }, clean, ga)
  | TelnetStateEnum.SUBNEG_IAC =>
    if c = TN_IAC then
      ({ st with
          state := TelnetStateEnum.SUBNEG
          subnegBuffer := st.subnegBuffer ++ [c]
          commandBuffer := [] },
        clean, ga)
    else if c = TN_WILL ∨ c = TN_WONT ∨ c = TN_DO ∨ c = TN_DONT then
      ({ st with state := TelnetStateEnum.SUBNEG_COMMAND, commandBuffer := st.commandBuffer ++ [c] },
        clean, ga)
    else if c = TN_SE then
      let st := { st with state := TelnetStateEnum.NORMAL }
      let st := processTelnetSubnegotiation st st.subnegBuffer
      if st.fatal.isSome then (st, clean, ga)
      else ({ st with commandBuffer := [], subnegBuffer := [] }, clean, ga)
    else if c = TN_SB then
      ({ st with state := TelnetStateEnum.NORMAL, commandBuffer := [], subnegBuffer := [] },
        clean, ga)
    else
      let st := { st with state := TelnetStateEnum.SUBNEG, commandBuffer := st.commandBuffer ++ [c] }
      let r := processTelnetCommand gaDetect st ga st.commandBuffer
      ({ r.1 with commandBuffer := [] }, clean, r.2)
  | TelnetStateEnum.SUBNEG_COMMAND =>
    let st := { st with state := TelnetStateEnum.SUBNEG, commandBuffer := st.commandBuffer ++ [c] }
    let r := processTelnetCommand gaDetect st ga st.commandBuffer
    ({ r.1 with commandBuffer := [] }, clean, r.2)

/-- Plain iteration of the byte FSM (no flushes, no decompression): the
"byte FSM" of spec §4.1 on a byte list. -/
def feedFSM (gaDetect : Bool) (st : State) (clean : List Nat) (ga : Bool) :
    List Nat → State × List Nat × Bool
  | [] => (st, clean, ga)
  | c :: rest =>
    let r := onReadInternal2 gaDetect st clean ga c
    feedFSM gaDetect r.1 r.2.1 r.2.2 rest

/-- zlib return codes relevant to `onReadInternalInflate`. -/
inductive ZRet where
  | zok
  | needDict
  | dataError
  | memError
  | streamEnd
  | bufError
  deriving DecidableEq, Repr

/-- The error set of the `switch (ret)` in `onReadInternalInflate`:
`Z_NEED_DICT`, `Z_DATA_ERROR`, `Z_MEM_ERROR`, `Z_STREAM_END`. -/
def zFailed : ZRet → Bool
  | ZRet.needDict => true
  | ZRet.dataError => true
  | ZRet.memError => true
  | ZRet.streamEnd => true
  | _ => false

/-- One invocation of the streaming inflater, abstracted: the inflated output
bytes produced by the successful `inflate` calls of the `do`/`while` loop,
the return code of the final call, and `stream.msg`. -/
structure InflateStep where
  out : List Nat
  ret : ZRet
  msg : String

/-- zlib abstracted as a deterministic oracle indexed by a per-engine call
counter (`zcalls` in the state). -/
def InflateOracle : Type :=
  Nat → List Nat → InflateStep

/-- `AbstractTelnet::initCompress` (zlib stream allocation is external). -/
def initCompress (st : State) : State :=
  { st with inflateTelnet := true }

/-- `AbstractTelnet::resetCompress`. -/
def resetCompress (st : State) : State :=
  { st with
    inflateTelnet := false
    recvdCompress := false
    hisOptionState := upd st.hisOptionState OPT_COMPRESS2 false }

/-- The value threaded through the reader loops: engine state, the clean
bytes buffer of the current call, the `recvdGA` member, and the
`sendToMapper` flushes delivered so far (bytes with their go-ahead marker). -/
structure RunSt where
  engine : State
  clean : List Nat
  ga : Bool
  flushes : List (List Nat × Bool)

/-- The inner per-byte loop of `onReadInternalInflate`: drive the FSM with
each inflated byte and flush (with the go-ahead marker) whenever `recvdGA`
is set, exactly as the plain loop does; stop when an exception unwinds. -/
def feedBytes (gaDetect : Bool) (r : RunSt) : List Nat → RunSt
  | [] => r
  | c :: rest =>
    if r.engine.fatal.isSome then r
    else
      let s := onReadInternal2 gaDetect r.engine r.clean r.ga c
      if s.1.fatal.isSome then
        { engine := s.1, clean := s.2.1, ga := s.2.2, flushes := r.flushes }
      else if s.2.2 then
        feedBytes gaDetect
          { engine := s.1, clean := [], ga := false,
            flushes := r.flushes ++ [(s.2.1, true)] } rest
      else
        feedBytes gaDetect
          { engine := s.1, clean := s.2.1, ga := s.2.2, flushes := r.flushes } rest

/-- `AbstractTelnet::onReadInternalInflate`: one oracle invocation inflates
the remaining input of this read call; its output is driven through the FSM
byte by byte; on a failing return code the stream is shut down
(`inflateEnd`/`resetCompress`) and `stream.msg` is raised. -/
def onReadInternalInflate (gaDetect : Bool) (oracle : InflateOracle) (r : RunSt)
    (input : List Nat) : RunSt :=
  let step := oracle r.engine.zcalls input
  let r := { r with engine := { r.engine with zcalls := r.engine.zcalls + 1 } }
  let r := feedBytes gaDetect r step.out
  if r.engine.fatal.isSome then r
  else if zFailed step.ret then
    { r with engine := { resetCompress r.engine with fatal := some step.msg } }
  else r

/-- The `while (pos < data.size())` loop of `onReadInternal`: divert to the
inflater when in inflate mode (it consumes the rest of this call's input),
otherwise process one byte, switch compression on when the COMPRESS2
subnegotiation just completed (skipping the GA check, as `continue` does),
and flush on a received GA. -/
def onReadLoop (gaDetect : Bool) (oracle : InflateOracle) (r : RunSt) :
    List Nat → RunSt
  | [] => r
  | c :: rest =>
    if r.engine.inflateTelnet then onReadInternalInflate gaDetect oracle r (c :: rest)
    else
      let s := onReadInternal2 gaDetect r.engine r.clean r.ga c
      if s.1.fatal.isSome then
        { engine := s.1, clean := s.2.1, ga := s.2.2, flushes := r.flushes }
      else if s.1.recvdCompress then
        onReadLoop gaDetect oracle
          { engine := initCompress { s.1 with recvdCompress := false },
            clean := s.2.1, ga := s.2.2, flushes := r.flushes } rest
      else if s.2.2 then
        onReadLoop gaDetect oracle
          { engine := s.1, clean := [], ga := false,
            flushes := r.flushes ++ [(s.2.1, true)] } rest
      else
        onReadLoop gaDetect oracle
          { engine := s.1, clean := s.2.1, ga := s.2.2, flushes := r.flushes } rest

/-- `AbstractTelnet::onReadInternal`: run the loop on this call's bytes with
a fresh clean-bytes buffer, then flush whatever is left (without a go-ahead
marker) unless an exception is unwinding. -/
def onReadInternal (gaDetect : Bool) (oracle : InflateOracle) (st : State)
    (ga : Bool) (data : List Nat) : RunSt :=
  if data = [] then { engine := st, clean := [], ga := ga, flushes := [] }
  else
    let r := onReadLoop gaDetect oracle { engine := st, clean := [], ga := ga, flushes := [] } data
    if r.engine.fatal.isSome then r
    else if r.clean ≠ [] then
      { r with clean := [], flushes := r.flushes ++ [(r.clean, r.ga)] }
    else r


section NegotiatorFrame

lemma doWILL_state (st : State) (o : Nat) : (doWILL st o).state = st.state := by
  simp only [doWILL, sendTelnetOption, sendTerminalTypeRequest, sendRawData]
  repeat' split
  all_goals rfl

lemma doWILL_commandBuffer (st : State) (o : Nat) :
    (doWILL st o).commandBuffer = st.commandBuffer := by
  simp only [doWILL, sendTelnetOption, sendTerminalTypeRequest, sendRawData]
  repeat' split
  all_goals rfl

lemma doWILL_subnegBuffer (st : State) (o : Nat) :
    (doWILL st o).subnegBuffer = st.subnegBuffer := by
  simp only [doWILL, sendTelnetOption, sendTerminalTypeRequest, sendRawData]
  repeat' split
  all_goals rfl

lemma doWILL_fatal (st : State) (o : Nat) : (doWILL st o).fatal = st.fatal := by
  simp only [doWILL, sendTelnetOption, sendTerminalTypeRequest, sendRawData]
  repeat' split
  all_goals rfl

lemma doWILL_events (st : State) (o : Nat) :
    ∃ t, (doWILL st o).events = st.events ++ t := by
  simp only [doWILL, sendTelnetOption, sendTerminalTypeRequest, sendRawData]
  repeat' split
  all_goals first
    | exact ⟨[], (List.append_nil _).symm⟩
    | (simp only [List.append_assoc]; exact ⟨_, rfl⟩)

lemma doWONT_state (st : State) (o : Nat) : (doWONT st o).state = st.state := by
  simp only [doWONT, sendTelnetOption, sendRawData]
  repeat' split
  all_goals rfl

lemma doWONT_commandBuffer (st : State) (o : Nat) :
    (doWONT st o).commandBuffer = st.commandBuffer := by
  simp only [doWONT, sendTelnetOption, sendRawData]
  repeat' split
  all_goals rfl

lemma doWONT_subnegBuffer (st : State) (o : Nat) :
    (doWONT st o).subnegBuffer = st.subnegBuffer := by
  simp only [doWONT, sendTelnetOption, sendRawData]
  repeat' split
  all_goals rfl

lemma doWONT_fatal (st : State) (o : Nat) : (doWONT st o).fatal = st.fatal := by
  simp only [doWONT, sendTelnetOption, sendRawData]
  repeat' split
  all_goals rfl

lemma doWONT_events (st : State) (o : Nat) :
    ∃ t, (doWONT st o).events = st.events ++ t := by
  simp only [doWONT, sendTelnetOption, sendRawData]
  repeat' split
  all_goals first
    | exact ⟨[], (List.append_nil _).symm⟩
    | (simp only [List.append_assoc]; exact ⟨_, rfl⟩)

lemma doDO_state (st : State) (o : Nat) : (doDO st o).state = st.state := by
  simp only [doDO, doSideEffects, sendTelnetOption, sendWindowSizeChanged,
    sendCharsetRequest, sendRawData]
  repeat' split
  all_goals rfl

lemma doDO_commandBuffer (st : State) (o : Nat) :
    (doDO st o).commandBuffer = st.commandBuffer := by
  simp only [doDO, doSideEffects, sendTelnetOption, sendWindowSizeChanged,
    sendCharsetRequest, sendRawData]
  repeat' split
  all_goals rfl

lemma doDO_subnegBuffer (st : State) (o : Nat) :
    (doDO st o).subnegBuffer = st.subnegBuffer := by
  simp only [doDO, doSideEffects, sendTelnetOption, sendWindowSizeChanged,
    sendCharsetRequest, sendRawData]
  repeat' split
  all_goals rfl

lemma doDO_fatal (st : State) (o : Nat) : (doDO st o).fatal = st.fatal := by
  simp only [doDO, doSideEffects, sendTelnetOption, sendWindowSizeChanged,
    sendCharsetRequest, sendRawData]
  repeat' split
  all_goals rfl

lemma doDO_events (st : State) (o : Nat) :
    ∃ t, (doDO st o).events = st.events ++ t := by
  simp only [doDO, doSideEffects, sendTelnetOption, sendWindowSizeChanged,
    sendCharsetRequest, sendRawData]
  repeat' split
  all_goals first
    | exact ⟨[], (List.append_nil _).symm⟩
    | (simp only [List.append_assoc]; exact ⟨_, rfl⟩)

lemma doDONT_state (st : State) (o : Nat) : (doDONT st o).state = st.state := by
  simp only [doDONT, sendTelnetOption, sendRawData]
  repeat' split
  all_goals rfl

lemma doDONT_commandBuffer (st : State) (o : Nat) :
    (doDONT st o).commandBuffer = st.commandBuffer := by
  simp only [doDONT, sendTelnetOption, sendRawData]
  repeat' split
  all_goals rfl

lemma doDONT_subnegBuffer (st : State) (o : Nat) :
    (doDONT st o).subnegBuffer = st.subnegBuffer := by
  simp only [doDONT, sendTelnetOption, sendRawData]
  repeat' split
  all_goals rfl

lemma doDONT_fatal (st : State) (o : Nat) : (doDONT st o).fatal = st.fatal := by
  simp only [doDONT, sendTelnetOption, sendRawData]
  repeat' split
  all_goals rfl

lemma doDONT_events (st : State) (o : Nat) :
    ∃ t, (doDONT st o).events = st.events ++ t := by
  simp only [doDONT, sendTelnetOption, sendRawData]
  repeat' split
  all_goals first
    | exact ⟨[], (List.append_nil _).symm⟩
    | (simp only [List.append_assoc]; exact ⟨_, rfl⟩)

lemma events_step (es : List TEvent) (e : TEvent) (t : List TEvent) :
    es ++ [e] ++ t = es ++ e :: t := by simp

/-- The negotiator's state effect never changes the FSM state. -/
lemma pcSt_state (st : State) (cmd : List Nat) :
    (processTelnetCommandSt st cmd).state = st.state := by
  simp only [processTelnetCommandSt, sendAreYouThere, sendRawData]
  repeat' split
  all_goals simp [doWILL_state, doWONT_state, doDO_state, doDONT_state]

lemma pcSt_commandBuffer (st : State) (cmd : List Nat) :
    (processTelnetCommandSt st cmd).commandBuffer = st.commandBuffer := by
  simp only [processTelnetCommandSt, sendAreYouThere, sendRawData]
  repeat' split
  all_goals simp [doWILL_commandBuffer, doWONT_commandBuffer, doDO_commandBuffer,
    doDONT_commandBuffer]

lemma pcSt_subnegBuffer (st : State) (cmd : List Nat) :
    (processTelnetCommandSt st cmd).subnegBuffer = st.subnegBuffer := by
  simp only [processTelnetCommandSt, sendAreYouThere, sendRawData]
  repeat' split
  all_goals simp [doWILL_subnegBuffer, doWONT_subnegBuffer, doDO_subnegBuffer,
    doDONT_subnegBuffer]

lemma pcSt_fatal (st : State) (cmd : List Nat) :
    (processTelnetCommandSt st cmd).fatal = st.fatal := by
  simp only [processTelnetCommandSt, sendAreYouThere, sendRawData]
  repeat' split
  all_goals simp [doWILL_fatal, doWONT_fatal, doDO_fatal, doDONT_fatal]

/-- The negotiator records the hand-off of the command first and only ever
appends further events. -/
lemma pcSt_events (st : State) (cmd : List Nat) :
    ∃ t, (processTelnetCommandSt st cmd).events = st.events ++ TEvent.command cmd :: t := by
  simp only [processTelnetCommandSt, sendAreYouThere, sendRawData]
  repeat' split
  all_goals first
    | exact ⟨[], rfl⟩
    | exact Exists.imp (fun t ht => by rw [ht, events_step]) (doWILL_events _ _)
    | exact Exists.imp (fun t ht => by rw [ht, events_step]) (doWONT_events _ _)
    | exact Exists.imp (fun t ht => by rw [ht, events_step]) (doDO_events _ _)
    | exact Exists.imp (fun t ht => by rw [ht, events_step]) (doDONT_events _ _)

end NegotiatorFrame



/-- A byte list without IAC is unchanged by the escaper. -/
lemma addEscapedBytes_of_no_iac (data : List Nat) (h : containsIAC data = false) :
    addEscapedBytes data = data := by
  induction data with
  | nil => rfl
  | cons c rest ih =>
    simp only [containsIAC, List.any_cons, Bool.or_eq_false_iff] at h
    have hc : c ≠ TN_IAC := by
      intro hc
      simp [hc] at h
    have ih2 := ih h.2
    simp only [addEscapedBytes] at ih2
    simp [addEscapedBytes, addEscaped, hc, ih2]

/-- C5: `submit_payload(B, g)` sends exactly `B` with every `0xFF` doubled
(all other bytes unmodified, in order), followed by `IAC GA` iff `g` holds
and `his_enabled[SUPPRESS_GA]` is false; no engine state other than the
sent-bytes accounting changes. -/
theorem C5_submit_payload (st : State) (data : List Nat) (goAhead : Bool) :
    submitOverTelnet st data goAhead =
      { st with
        sent := st.sent ++ data.flatMap (fun b => if b = TN_IAC then [b, b] else [b]) ++
          (if goAhead && !(st.hisOptionState OPT_SUPPRESS_GA) then [TN_IAC, TN_GA]
            else []) } := by
  have hesc : data.flatMap (fun b => if b = TN_IAC then [b, b] else [b]) =
      addEscapedBytes data := rfl
  rw [hesc]
  unfold submitOverTelnet sendRawData
  cases hc : containsIAC data with
  | false =>
    rw [addEscapedBytes_of_no_iac data hc]
    by_cases hg : (goAhead && !st.hisOptionState OPT_SUPPRESS_GA) = true
    · simp [hg]
    · simp only [Bool.not_eq_true] at hg
      simp [hg]
  | true =>
    by_cases hg : (goAhead && !st.hisOptionState OPT_SUPPRESS_GA) = true
    · simp [hg]
    · simp only [Bool.not_eq_true] at hg
      simp [hg]

/-- C8: enabling a GMCP module that carries no version is rejected with the
local error "missing version" and performs no state change (the error is
raised before any mutation, so no updated `GmcpData` is ever produced). -/
theorem C8_gmcp_missing_version (g : GmcpData) (m : GmcpModule)
    (h : m.hasVersion = false) :
    receiveGmcpModule g m true = Except.error "missing version" := by
  simp [receiveGmcpModule, h]

theorem C8_gmcp_missing_version_witness :
    GmcpModule.hasVersion ⟨[67, 104, 97, 114], none, some 1⟩ = false ∧
      receiveGmcpModule ⟨fun _ => 0, []⟩ ⟨[67, 104, 97, 114], none, some 1⟩ true =
        Except.error "missing version" :=
  ⟨rfl, C8_gmcp_missing_version _ _ rfl⟩

/-- C10: `is_gmcp_module_enabled` is false whenever `my_enabled[GMCP]` is
false, regardless of the version table; with `my_enabled[GMCP]` true it holds
iff the stored version differs from the default (zero) version. -/
theorem C10_gmcp_module_enabled (st : State) (t : Nat) :
    (st.myOptionState OPT_GMCP = false → isGmcpModuleEnabled st t = false) ∧
    (st.myOptionState OPT_GMCP = true →
      (isGmcpModuleEnabled st t = true ↔
        st.gmcp.supported t ≠ DEFAULT_GMCP_MODULE_VERSION)) := by
  constructor
  · intro h
    simp [isGmcpModuleEnabled, h]
  · intro h
    simp [isGmcpModuleEnabled, h, bne_iff_ne]

theorem C10_gmcp_module_enabled_witness :
    isGmcpModuleEnabled (initialState ⟨[], []⟩ [] false 0 0) 7 = false ∧
      (isGmcpModuleEnabled
          { initialState ⟨[], []⟩ [] false 0 0 with
            myOptionState := upd (fun _ => false) OPT_GMCP true } 7 = true ↔
        ({ initialState ⟨[], []⟩ [] false 0 0 with
            myOptionState := upd (fun _ => false) OPT_GMCP true } : State).gmcp.supported 7 ≠
          DEFAULT_GMCP_MODULE_VERSION) :=
  ⟨(C10_gmcp_module_enabled _ 7).1 rfl,
    (C10_gmcp_module_enabled _ 7).2 (by simp [upd])⟩



lemma charsetSubneg_state (st : State) (p : List Nat) :
    (charsetSubneg st p).state = st.state := by
  simp only [charsetSubneg, sendCharsetAccepted, sendCharsetRejected, sendRawData,
    setEncodingForName]
  repeat' split
  all_goals rfl

lemma charsetSubneg_events (st : State) (p : List Nat) :
    (charsetSubneg st p).events = st.events := by
  simp only [charsetSubneg, sendCharsetAccepted, sendCharsetRejected, sendRawData,
    setEncodingForName]
  repeat' split
  all_goals rfl

lemma subneg_state (st : State) (p : List Nat) :
    (processTelnetSubnegotiation st p).state = st.state := by
  simp only [processTelnetSubnegotiation, sendOptionStatus, sendTerminalType, sendRawData]
  repeat' split
  all_goals simp [charsetSubneg_state]

/-- The host-callback events a subnegotiation dispatch appends after the
hand-off event (proof-layer bookkeeping; mirrors the branch structure of
`processTelnetSubnegotiation`). -/
def subnegDelta (st : State) (p : List Nat) : List TEvent :=
  let option := p.getD 0 0
  if option = OPT_STATUS then []
  else if option = OPT_TERMINAL_TYPE then
    if st.myOptionState OPT_TERMINAL_TYPE = true then
      if p.getD 1 0 = TNSB_SEND then []
      else if p.getD 1 0 = TNSB_IS then [TEvent.terminalType (p.drop 2)]
      else []
    else []
  else if option = OPT_CHARSET then []
  else if option = OPT_COMPRESS2 then []
  else if option = OPT_GMCP then
    if st.myOptionState OPT_GMCP = true then
      if p.length ≤ 1 then [] else [TEvent.gmcpMsg (p.drop 1)]
    else []
  else if option = OPT_NAWS then
    if st.myOptionState OPT_NAWS = true then
      if p.length = 5 then
        [TEvent.windowSize (p.getD 1 0 * 256 + p.getD 2 0)
          (p.getD 3 0 * 256 + p.getD 4 0)]
      else []
    else []
  else []

lemma subneg_events_eq (st : State) (p : List Nat) :
    (processTelnetSubnegotiation st p).events =
      st.events ++ TEvent.subnegotiation p :: subnegDelta st p := by
  simp only [processTelnetSubnegotiation, subnegDelta, sendOptionStatus, sendTerminalType,
    sendRawData]
  repeat' split
  all_goals first
    | rfl
    | (rw [charsetSubneg_events]; try rfl)
    | simp

lemma subneg_events (st : State) (p : List Nat) :
    ∃ t, (processTelnetSubnegotiation st p).events =
      st.events ++ TEvent.subnegotiation p :: t :=
  ⟨subnegDelta st p, subneg_events_eq st p⟩

/-- C1: one byte through `onReadInternal2` performs exactly the state
transition and buffer action of the spec's transition table (§4.1), for every
FSM state and every input byte: plaintext and doubled IAC go to the clean
buffer, a stray `IAC SE` is ignored, and inside a subnegotiation `IAC IAC`
appends a single `0xFF` to the subneg buffer, `IAC SE` hands the subneg
buffer to the negotiator and returns to `NORMAL`, `IAC SB` drops the
subnegotiation, and embedded commands are dispatched while the FSM stays
within the subnegotiation. -/
theorem C1_transition_table (st : State) (clean : List Nat) (ga : Bool) (c : Nat) :
    (st.state = TelnetStateEnum.NORMAL → c ≠ TN_IAC →
      onReadInternal2 true st clean ga c = (st, clean ++ [c], ga)) ∧
    (st.state = TelnetStateEnum.NORMAL → c = TN_IAC →
      onReadInternal2 true st clean ga c =
        ({ st with
            state := TelnetStateEnum.IAC
            commandBuffer := st.commandBuffer ++ [c] }, clean, ga)) ∧
    (st.state = TelnetStateEnum.IAC → c = TN_IAC →
      onReadInternal2 true st clean ga c =
        ({ st with state := TelnetStateEnum.NORMAL, commandBuffer := [] },
          clean ++ [c], ga)) ∧
    (st.state = TelnetStateEnum.IAC → (c = TN_WILL ∨ c = TN_WONT ∨ c = TN_DO ∨ c = TN_DONT) →
      onReadInternal2 true st clean ga c =
        ({ st with
            state := TelnetStateEnum.COMMAND
            commandBuffer := st.commandBuffer ++ [c] }, clean, ga)) ∧
    (st.state = TelnetStateEnum.IAC → c = TN_SB →
      onReadInternal2 true st clean ga c =
        ({ st with state := TelnetStateEnum.SUBNEG, commandBuffer := [] }, clean, ga)) ∧
    (st.state = TelnetStateEnum.IAC → c = TN_SE →
      onReadInternal2 true st clean ga c =
        ({ st with state := TelnetStateEnum.NORMAL, commandBuffer := [] }, clean, ga)) ∧
    (st.state = TelnetStateEnum.IAC → c ≠ TN_IAC →
      ¬(c = TN_WILL ∨ c = TN_WONT ∨ c = TN_DO ∨ c = TN_DONT) → c ≠ TN_SB → c ≠ TN_SE →
      (onReadInternal2 true st clean ga c).1.state = TelnetStateEnum.NORMAL ∧
      (onReadInternal2 true st clean ga c).1.commandBuffer = [] ∧
      (onReadInternal2 true st clean ga c).1.subnegBuffer = st.subnegBuffer ∧
      (onReadInternal2 true st clean ga c).2.1 = clean ∧
      (∃ t, (onReadInternal2 true st clean ga c).1.events =
        st.events ++ TEvent.command (st.commandBuffer ++ [c]) :: t)) ∧
    (st.state = TelnetStateEnum.COMMAND →
      (onReadInternal2 true st clean ga c).1.state = TelnetStateEnum.NORMAL ∧
      (onReadInternal2 true st clean ga c).1.commandBuffer = [] ∧
      (onReadInternal2 true st clean ga c).1.subnegBuffer = st.subnegBuffer ∧
      (onReadInternal2 true st clean ga c).2.1 = clean ∧
      (∃ t, (onReadInternal2 true st clean ga c).1.events =
        st.events ++ TEvent.command (st.commandBuffer ++ [c]) :: t)) ∧
    (st.state = TelnetStateEnum.SUBNEG → c = TN_IAC →
      onReadInternal2 true st clean ga c =
        ({ st with
            state := TelnetStateEnum.SUBNEG_IAC
            commandBuffer := st.commandBuffer ++ [c] }, clean, ga)) ∧
    (st.state = TelnetStateEnum.SUBNEG → c ≠ TN_IAC →
      onReadInternal2 true st clean ga c =
        ({ st with subnegBuffer := st.subnegBuffer ++ [c] }, clean, ga)) ∧
    (st.state = TelnetStateEnum.SUBNEG_IAC → c = TN_IAC →
      onReadInternal2 true st clean ga c =
        ({ st with
            state := TelnetStateEnum.SUBNEG
            subnegBuffer := st.subnegBuffer ++ [c]
            commandBuffer := [] }, clean, ga)) ∧
    (st.state = TelnetStateEnum.SUBNEG_IAC →
      (c = TN_WILL ∨ c = TN_WONT ∨ c = TN_DO ∨ c = TN_DONT) →
      onReadInternal2 true st clean ga c =
        ({ st with
            state := TelnetStateEnum.SUBNEG_COMMAND
            commandBuffer := st.commandBuffer ++ [c] }, clean, ga)) ∧
    (st.state = TelnetStateEnum.SUBNEG_IAC → c = TN_SE →
      (onReadInternal2 true st clean ga c).1.state = TelnetStateEnum.NORMAL ∧
      (onReadInternal2 true st clean ga c).2.1 = clean ∧
      (∃ t, (onReadInternal2 true st clean ga c).1.events =
        st.events ++ TEvent.subnegotiation st.subnegBuffer :: t) ∧
      ((onReadInternal2 true st clean ga c).1.fatal = none →
        (onReadInternal2 true st clean ga c).1.commandBuffer = [] ∧
        (onReadInternal2 true st clean ga c).1.subnegBuffer = [])) ∧
    (st.state = TelnetStateEnum.SUBNEG_IAC → c = TN_SB →
      onReadInternal2 true st clean ga c =
        ({ st with
            state := TelnetStateEnum.NORMAL
            commandBuffer := []
            subnegBuffer := [] }, clean, ga)) ∧
    (st.state = TelnetStateEnum.SUBNEG_IAC → c ≠ TN_IAC →
      ¬(c = TN_WILL ∨ c = TN_WONT ∨ c = TN_DO ∨ c = TN_DONT) → c ≠ TN_SE → c ≠ TN_SB →
      (onReadInternal2 true st clean ga c).1.state = TelnetStateEnum.SUBNEG ∧
      (onReadInternal2 true st clean ga c).1.commandBuffer = [] ∧
      (onReadInternal2 true st clean ga c).1.subnegBuffer = st.subnegBuffer ∧
      (onReadInternal2 true st clean ga c).2.1 = clean ∧
      (∃ t, (onReadInternal2 true st clean ga c).1.events =
        st.events ++ TEvent.command (st.commandBuffer ++ [c]) :: t)) ∧
    (st.state = TelnetStateEnum.SUBNEG_COMMAND →
      (onReadInternal2 true st clean ga c).1.state = TelnetStateEnum.SUBNEG ∧
      (onReadInternal2 true st clean ga c).1.commandBuffer = [] ∧
      (onReadInternal2 true st clean ga c).1.subnegBuffer = st.subnegBuffer ∧
      (onReadInternal2 true st clean ga c).2.1 = clean ∧
      (∃ t, (onReadInternal2 true st clean ga c).1.events =
        st.events ++ TEvent.command (st.commandBuffer ++ [c]) :: t)) := by
  refine ⟨?_, ?_, ?_, ?_, ?_, ?_, ?_, ?_, ?_, ?_, ?_, ?_, ?_, ?_, ?_, ?_⟩
  · intro h1 h2
    simp [onReadInternal2, h1, h2]
  · intro h1 h2
    simp [onReadInternal2, h1, h2]
  · intro h1 h2
    simp [onReadInternal2, h1, h2]
  · intro h1 h2
    have hni : c ≠ TN_IAC := by
      rcases h2 with rfl | rfl | rfl | rfl <;> decide
    simp [onReadInternal2, h1, h2, hni]
  · intro h1 h2
    simp [onReadInternal2, h1, h2, TN_SB, TN_IAC, TN_WILL, TN_WONT, TN_DO, TN_DONT]
  · intro h1 h2
    simp [onReadInternal2, h1, h2, TN_SE, TN_IAC, TN_WILL, TN_WONT, TN_DO, TN_DONT, TN_SB]
  · intro h1 h2 h3 h4 h5
    simp only [onReadInternal2, h1, if_neg h2, if_neg h3, if_neg h4, if_neg h5,
      processTelnetCommand]
    refine ⟨?_, ?_, ?_, ?_, ?_⟩ <;>
      first
        | trivial
        | simp [pcSt_state]
        | simp [pcSt_subnegBuffer]
        | exact pcSt_events _ _
  · intro h1
    simp only [onReadInternal2, h1, processTelnetCommand]
    refine ⟨?_, ?_, ?_, ?_, ?_⟩ <;>
      first
        | trivial
        | simp [pcSt_state]
        | simp [pcSt_subnegBuffer]
        | exact pcSt_events _ _
  · intro h1 h2
    simp [onReadInternal2, h1, h2]
  · intro h1 h2
    simp [onReadInternal2, h1, h2]
  · intro h1 h2
    simp [onReadInternal2, h1, h2]
  · intro h1 h2
    have hni : c ≠ TN_IAC := by
      rcases h2 with rfl | rfl | rfl | rfl <;> decide
    simp [onReadInternal2, h1, h2, hni]
  · intro h1 h2
    have hni : c ≠ TN_IAC := by
      subst h2; decide
    have hnv : ¬(c = TN_WILL ∨ c = TN_WONT ∨ c = TN_DO ∨ c = TN_DONT) := by
      subst h2; decide
    simp only [onReadInternal2, h1, if_neg hni, if_neg hnv, if_pos h2]
    refine ⟨?_, ?_, ?_, ?_⟩
    · split <;> simp [subneg_state]
    · split <;> rfl
    · split
      · exact subneg_events _ _
      · exact subneg_events _ _
    · split
      · rename_i hsome
        intro hf
        rw [hf] at hsome
        simp at hsome
      · intro hf
        exact ⟨rfl, rfl⟩
  · intro h1 h2
    simp [onReadInternal2, h1, h2, TN_SB, TN_IAC, TN_WILL, TN_WONT, TN_DO, TN_DONT, TN_SE]
  · intro h1 h2 h3 h4 h5
    simp only [onReadInternal2, h1, if_neg h2, if_neg h3, if_neg h4, if_neg h5,
      processTelnetCommand]
    refine ⟨?_, ?_, ?_, ?_, ?_⟩ <;>
      first
        | trivial
        | simp [pcSt_state]
        | simp [pcSt_subnegBuffer]
        | exact pcSt_events _ _
  · intro h1
    simp only [onReadInternal2, h1, processTelnetCommand]
    refine ⟨?_, ?_, ?_, ?_, ?_⟩ <;>
      first
        | trivial
        | simp [pcSt_state]
        | simp [pcSt_subnegBuffer]
        | exact pcSt_events _ _

theorem C1_transition_table_witness :
    onReadInternal2 true (initialState ⟨[], []⟩ [] false 0 0) [] false 97 =
      (initialState ⟨[], []⟩ [] false 0 0, [97], false) :=
  (C1_transition_table (initialState ⟨[], []⟩ [] false 0 0) [] false 97).1 rfl (by decide)



/-- An inflate oracle that never produces output; the runs below never enter
inflate mode, so it is never consulted. -/
def idleOracle : InflateOracle := fun _ _ => ⟨[], ZRet.zok, ""⟩

/-- A codec supporting exactly UTF-8 (bytes of "UTF-8"), currently on
Latin-1. -/
def c4Codec : TextCodec :=
  ⟨[[85, 84, 70, 45, 56]], [76, 97, 116, 105, 110, 45, 49]⟩

/-- A freshly reset engine with UTF-8 among the supported encodings. -/
def c4Start : State := initialState c4Codec [] false 80 24

/-- `IAC WILL CHARSET` followed by `CHARSET REQUEST ";" "UTF-8"`. -/
def c4Input : List Nat :=
  [255, 251, 42, 255, 250, 42, 1, 59, 85, 84, 70, 45, 56, 255, 240]

/-- C4 counterexample: from the initial state, the scenario's input does NOT
produce the claimed `IAC DO CHARSET` followed by `CHARSET ACCEPTED UTF-8`,
and the encoding does not become UTF-8: the engine only replies
`FF FD 2A` and drops the REQUEST, because the CHARSET subnegotiation handler
is guarded by `my_enabled[CHARSET]`, which is still false after merely
receiving `WILL CHARSET`. -/
theorem C4_charset_counterexample :
    ¬ ((onReadInternal true idleOracle c4Start false c4Input).engine.sent =
          [255, 253, 42] ++ [255, 250, 42, 2, 85, 84, 70, 45, 56, 255, 240] ∧
        (onReadInternal true idleOracle c4Start false c4Input).engine.textCodec.encoding =
          [85, 84, 70, 45, 56]) := by
  decide

/-- C4 amended: starting from the initial state with UTF-8 supported, the
input `IAC WILL CHARSET` then `CHARSET REQUEST ";" "UTF-8"` causes the engine
to send only `FF FD 2A` (`IAC DO CHARSET`); the REQUEST subnegotiation is
handed off but ignored (`my_enabled[CHARSET]` is false from the initial
state, and only `request_telnet_option` would set it), so no ACCEPTED reply
is sent and the current encoding is unchanged. -/
theorem C4_charset_amended :
    (onReadInternal true idleOracle c4Start false c4Input).engine.sent = [255, 253, 42] ∧
    (onReadInternal true idleOracle c4Start false c4Input).engine.textCodec.encoding =
      c4Codec.encoding ∧
    (onReadInternal true idleOracle c4Start false c4Input).engine.hisOptionState
      OPT_CHARSET = true ∧
    (onReadInternal true idleOracle c4Start false c4Input).engine.myOptionState
      OPT_CHARSET = false ∧
    (onReadInternal true idleOracle c4Start false c4Input).engine.events =
      [TEvent.command [255, 251, 42],
        TEvent.subnegotiation [42, 1, 59, 85, 84, 70, 45, 56]] := by
  refine ⟨by decide, by decide, by decide, by decide, by decide⟩

/-- The engine after the host announced `WILL NAWS` via
`request_telnet_option` (as the proxy does on connect): `my_enabled[NAWS]`
is already true. -/
def c6Start : State :=
  requestTelnetOption (initialState ⟨[], []⟩ [] false 80 24) TN_WILL OPT_NAWS

/-- C6 counterexample: a `DO NAWS` received while `my_enabled[NAWS]` is
already true DOES trigger the enable side-effect: the side-effect chain of
`case TN_DO` sits outside the `!myOptionState[option]` branch, so the engine
re-sends the NAWS subnegotiation `FF FA 1F 00 50 00 18 FF F0`, refuting
"a DO o received while my_enabled[o] is already true triggers no
side-effect". -/
theorem C6_do_side_effect_counterexample :
    c6Start.myOptionState OPT_NAWS = true ∧
    (processTelnetCommand true c6Start false [TN_IAC, TN_DO, OPT_NAWS]).1.sent =
      c6Start.sent ++ [255, 250, 31, 0, 80, 0, 24, 255, 240] ∧
    ¬ ((processTelnetCommand true c6Start false [TN_IAC, TN_DO, OPT_NAWS]).1.sent =
        c6Start.sent) := by
  refine ⟨by decide, by decide, by decide⟩

lemma doSupported_cases (o : Nat) (h : doSupported o = true) :
    o = OPT_SUPPRESS_GA ∨ o = OPT_STATUS ∨ o = OPT_TERMINAL_TYPE ∨ o = OPT_NAWS ∨
      o = OPT_ECHO ∨ o = OPT_CHARSET ∨ o = OPT_GMCP := by
  simp only [doSupported, Bool.or_eq_true, decide_eq_true_eq] at h
  tauto

/-- The bytes the DO side-effect chain emits for a supported option `o` whose
`my_enabled[o]` holds after processing (NAWS: current window size; CHARSET:
a charset request; otherwise nothing). -/
def doSideEffectBytes (st : State) (o : Nat) : List Nat :=
  if o = OPT_NAWS then
    [TN_IAC, TN_SB, OPT_NAWS] ++ nawsBody st.curX st.curY ++ [TN_IAC, TN_SE]
  else if o = OPT_CHARSET then
    [TN_IAC, TN_SB, OPT_CHARSET] ++ charsetReqBody st.textCodec.supportedEncodings
      ++ [TN_IAC, TN_SE]
  else []

/-- C6 amended: on `DO o` for a supported option `o` (never `TIMING_MARK`,
which is not in the DO-acceptance set) with `my_enabled[o]` false, the engine
replies `WILL o`, sets `my_enabled[o]` and `my_announced[o]`, and runs the
enable side-effect (NAWS: sends the current window size; CHARSET: sends a
charset request; GMCP: fires `on_gmcp_enabled`).  However, the side-effect
chain is NOT restricted to the newly-enabling path: a `DO o` received while
`my_enabled[o]` is already true changes no option flags and sends no `WILL`,
but still runs the side-effect for NAWS/CHARSET/GMCP. -/
theorem C6_do_enable_amended (st : State) (ga : Bool) (o : Nat)
    (hsupp : doSupported o = true) :
    (st.myOptionState o = false →
      (processTelnetCommand true st ga [TN_IAC, TN_DO, o]).1.myOptionState o = true ∧
      (processTelnetCommand true st ga [TN_IAC, TN_DO, o]).1.announcedState o = true ∧
      (processTelnetCommand true st ga [TN_IAC, TN_DO, o]).1.sent =
        st.sent ++ [TN_IAC, TN_WILL, o] ++ doSideEffectBytes st o ∧
      (processTelnetCommand true st ga [TN_IAC, TN_DO, o]).1.events =
        st.events ++ [TEvent.command [TN_IAC, TN_DO, o]] ++
          (if o = OPT_GMCP then [TEvent.gmcpOn] else [])) ∧
    (st.myOptionState o = true →
      (processTelnetCommand true st ga [TN_IAC, TN_DO, o]).1.myOptionState =
        st.myOptionState ∧
      (processTelnetCommand true st ga [TN_IAC, TN_DO, o]).1.announcedState =
        st.announcedState ∧
      (processTelnetCommand true st ga [TN_IAC, TN_DO, o]).1.sent =
        st.sent ++ doSideEffectBytes st o ∧
      (processTelnetCommand true st ga [TN_IAC, TN_DO, o]).1.events =
        st.events ++ [TEvent.command [TN_IAC, TN_DO, o]] ++
          (if o = OPT_GMCP then [TEvent.gmcpOn] else [])) := by
  rcases doSupported_cases o hsupp with rfl | rfl | rfl | rfl | rfl | rfl | rfl <;>
    (constructor <;> intro h <;>
      (try simp only [OPT_SUPPRESS_GA, OPT_STATUS, OPT_TERMINAL_TYPE, OPT_NAWS, OPT_ECHO,
        OPT_CHARSET, OPT_GMCP] at h) <;>
      simp [processTelnetCommand, processTelnetCommandSt, doDO, doSideEffects,
        doSideEffectBytes, sendTelnetOption, sendWindowSizeChanged, sendCharsetRequest,
        sendRawData, upd, h, OPT_SUPPRESS_GA, OPT_STATUS, OPT_TERMINAL_TYPE, OPT_NAWS,
        OPT_ECHO, OPT_CHARSET, OPT_GMCP, OPT_TIMING_MARK, OPT_COMPRESS2, TN_IAC, TN_DO,
        TN_WILL, TN_WONT, TN_DONT, TN_SB, TN_SE, TN_GA, TN_AYT, doSupported, NO_ZLIB])

theorem C6_do_enable_amended_witness :
    (processTelnetCommand true (initialState ⟨[], []⟩ [] false 80 24) false
        [TN_IAC, TN_DO, OPT_NAWS]).1.myOptionState OPT_NAWS = true ∧
      (processTelnetCommand true (initialState ⟨[], []⟩ [] false 80 24) false
          [TN_IAC, TN_DO, OPT_NAWS]).1.announcedState OPT_NAWS = true ∧
      (processTelnetCommand true (initialState ⟨[], []⟩ [] false 80 24) false
          [TN_IAC, TN_DO, OPT_NAWS]).1.sent =
        (initialState ⟨[], []⟩ [] false 80 24 : State).sent ++ [TN_IAC, TN_WILL, OPT_NAWS]
          ++ doSideEffectBytes (initialState ⟨[], []⟩ [] false 80 24) OPT_NAWS ∧
      (processTelnetCommand true (initialState ⟨[], []⟩ [] false 80 24) false
          [TN_IAC, TN_DO, OPT_NAWS]).1.events =
        (initialState ⟨[], []⟩ [] false 80 24 : State).events ++
          [TEvent.command [TN_IAC, TN_DO, OPT_NAWS]] ++
          (if OPT_NAWS = OPT_GMCP then [TEvent.gmcpOn] else []) :=
  (C6_do_enable_amended (initialState ⟨[], []⟩ [] false 80 24) false OPT_NAWS
    (by decide)).1 rfl



lemma submit_sent (st : State) (data : List Nat) (h0 : st.sent = []) :
    (submitOverTelnet st data false).sent = addEscapedBytes data := by
  unfold submitOverTelnet sendRawData
  cases hc : containsIAC data with
  | false => simp [h0, addEscapedBytes_of_no_iac data hc]
  | true => simp [h0]

/-- C2: escaping any byte sequence with the outbound framer (no go-ahead) and
feeding the escaped bytes back into the byte FSM, starting in `NORMAL`,
reproduces exactly the original bytes in the clean buffer, emits no telnet
commands and no subnegotiations (no events, no replies), and leaves the FSM
in `NORMAL`. -/
theorem C2_escape_roundtrip (S : List Nat) (st0 st : State) (clean : List Nat) (ga : Bool)
    (h0 : st0.sent = []) (h : st.state = TelnetStateEnum.NORMAL) :
    (feedFSM true st clean ga ((submitOverTelnet st0 S false).sent)).1.state =
        TelnetStateEnum.NORMAL ∧
    (feedFSM true st clean ga ((submitOverTelnet st0 S false).sent)).2.1 = clean ++ S ∧
    (feedFSM true st clean ga ((submitOverTelnet st0 S false).sent)).1.events = st.events ∧
    (feedFSM true st clean ga ((submitOverTelnet st0 S false).sent)).1.sent = st.sent ∧
    (feedFSM true st clean ga ((submitOverTelnet st0 S false).sent)).2.2 = ga := by
  rw [submit_sent st0 S h0]
  clear h0
  induction S generalizing st clean ga with
  | nil => simp [addEscapedBytes, feedFSM, h]
  | cons c S ih =>
    by_cases hc : c = TN_IAC
    · subst hc
      have hrw : addEscapedBytes (TN_IAC :: S) = TN_IAC :: TN_IAC :: addEscapedBytes S := by
        simp [addEscapedBytes, addEscaped]
      rw [hrw]
      have step1 : feedFSM true st clean ga (TN_IAC :: TN_IAC :: addEscapedBytes S) =
          feedFSM true
            { st with state := TelnetStateEnum.NORMAL, commandBuffer := [] }
            (clean ++ [TN_IAC]) ga (addEscapedBytes S) := by
        simp [feedFSM, onReadInternal2, h]
      rw [step1]
      obtain ⟨e1, e2, e3, e4, e5⟩ :=
        ih { st with state := TelnetStateEnum.NORMAL, commandBuffer := [] }
          (clean ++ [TN_IAC]) ga rfl
      refine ⟨e1, ?_, e3, e4, e5⟩
      rw [e2]
      simp
    · have hrw : addEscapedBytes (c :: S) = c :: addEscapedBytes S := by
        simp [addEscapedBytes, addEscaped, hc]
      rw [hrw]
      have step1 : feedFSM true st clean ga (c :: addEscapedBytes S) =
          feedFSM true st (clean ++ [c]) ga (addEscapedBytes S) := by
        simp [feedFSM, onReadInternal2, h, hc]
      rw [step1]
      obtain ⟨e1, e2, e3, e4, e5⟩ := ih st (clean ++ [c]) ga h
      refine ⟨e1, ?_, e3, e4, e5⟩
      rw [e2]
      simp

theorem C2_escape_roundtrip_witness :
    (feedFSM true (initialState ⟨[], []⟩ [] false 0 0) [] false
        ((submitOverTelnet (initialState ⟨[], []⟩ [] false 0 0) [97, 255, 98] false).sent)).2.1 =
      [97, 255, 98] :=
  (C2_escape_roundtrip [97, 255, 98] (initialState ⟨[], []⟩ [] false 0 0)
    (initialState ⟨[], []⟩ [] false 0 0) [] false rfl rfl).2.1



section InflateFrame


lemma doWILL_inflateTelnet (st : State) (o : Nat) :
    (doWILL st o).inflateTelnet = st.inflateTelnet := by
  simp only [doWILL, sendTelnetOption, sendTerminalTypeRequest, sendRawData]
  repeat' split
  all_goals rfl

lemma doWONT_inflateTelnet (st : State) (o : Nat) :
    (doWONT st o).inflateTelnet = st.inflateTelnet := by
  simp only [doWONT, sendTelnetOption, sendRawData]
  repeat' split
  all_goals rfl

lemma doDO_inflateTelnet (st : State) (o : Nat) :
    (doDO st o).inflateTelnet = st.inflateTelnet := by
  simp only [doDO, doSideEffects, sendTelnetOption, sendWindowSizeChanged,
    sendCharsetRequest, sendRawData]
  repeat' split
  all_goals rfl

lemma doDONT_inflateTelnet (st : State) (o : Nat) :
    (doDONT st o).inflateTelnet = st.inflateTelnet := by
  simp only [doDONT, sendTelnetOption, sendRawData]
  repeat' split
  all_goals rfl

lemma pcSt_inflateTelnet (st : State) (cmd : List Nat) :
    (processTelnetCommandSt st cmd).inflateTelnet = st.inflateTelnet := by
  simp only [processTelnetCommandSt, sendAreYouThere, sendRawData]
  repeat' split
  all_goals simp [doWILL_inflateTelnet, doWONT_inflateTelnet, doDO_inflateTelnet,
    doDONT_inflateTelnet]

lemma charsetSubneg_inflateTelnet (st : State) (p : List Nat) :
    (charsetSubneg st p).inflateTelnet = st.inflateTelnet := by
  simp only [charsetSubneg, sendCharsetAccepted, sendCharsetRejected, sendRawData,
    setEncodingForName]
  repeat' split
  all_goals rfl

lemma subneg_inflateTelnet (st : State) (p : List Nat) :
    (processTelnetSubnegotiation st p).inflateTelnet = st.inflateTelnet := by
  simp only [processTelnetSubnegotiation, sendOptionStatus, sendTerminalType, sendRawData]
  repeat' split
  all_goals simp [charsetSubneg_inflateTelnet]

lemma onRead2_inflateTelnet (g : Bool) (st : State) (clean : List Nat) (ga : Bool) (c : Nat) :
    (onReadInternal2 g st clean ga c).1.inflateTelnet = st.inflateTelnet := by
  cases hst : st.state <;>
    simp only [onReadInternal2, hst, processTelnetCommand] <;>
    repeat' split
  all_goals simp [pcSt_inflateTelnet, subneg_inflateTelnet]


end InflateFrame

section PlainMode

/-- Comparison model for plain (non-inflating) processing: the reader loop of
`onReadInternal` with the decompression diversion removed. -/
def onReadLoopPlain (gaDetect : Bool) (r : RunSt) : List Nat → RunSt
  | [] => r
  | c :: rest =>
    let s := onReadInternal2 gaDetect r.engine r.clean r.ga c
    if s.1.fatal.isSome then
      { engine := s.1, clean := s.2.1, ga := s.2.2, flushes := r.flushes }
    else if s.1.recvdCompress then
      onReadLoopPlain gaDetect
        { engine := initCompress { s.1 with recvdCompress := false },
          clean := s.2.1, ga := s.2.2, flushes := r.flushes } rest
    else if s.2.2 then
      onReadLoopPlain gaDetect
        { engine := s.1, clean := [], ga := false,
          flushes := r.flushes ++ [(s.2.1, true)] } rest
    else
      onReadLoopPlain gaDetect
        { engine := s.1, clean := s.2.1, ga := s.2.2, flushes := r.flushes } rest

/-- Plain-mode `onReadInternal` (the wrapper over the plain loop). -/
def onReadPlain (gaDetect : Bool) (st : State) (ga : Bool) (data : List Nat) : RunSt :=
  if data = [] then { engine := st, clean := [], ga := ga, flushes := [] }
  else
    let r := onReadLoopPlain gaDetect { engine := st, clean := [], ga := ga, flushes := [] } data
    if r.engine.fatal.isSome then r
    else if r.clean ≠ [] then
      { r with clean := [], flushes := r.flushes ++ [(r.clean, r.ga)] }
    else r

lemma plainLoop_mono (g : Bool) (data : List Nat) : ∀ r : RunSt,
    r.engine.inflateTelnet = true →
    (onReadLoopPlain g r data).engine.inflateTelnet = true := by
  induction data with
  | nil => intro r h; simpa [onReadLoopPlain] using h
  | cons c rest ih =>
    intro r h
    simp only [onReadLoopPlain]
    split
    · simpa [onRead2_inflateTelnet] using h
    · split
      · exact ih _ (by simp [initCompress])
      · split
        · exact ih _ (by simpa [onRead2_inflateTelnet] using h)
        · exact ih _ (by simpa [onRead2_inflateTelnet] using h)

lemma loop_eq_plain (oracle : InflateOracle) (data : List Nat) : ∀ r : RunSt,
    r.engine.inflateTelnet = false →
    onReadLoop true oracle r data = onReadLoopPlain true r data ∨
      (onReadLoopPlain true r data).engine.inflateTelnet = true := by
  induction data with
  | nil => intro r _; left; rfl
  | cons c rest ih =>
    intro r h
    simp only [onReadLoop, onReadLoopPlain, h, if_false, Bool.false_eq_true]
    split
    · left; rfl
    · split
      · right
        exact plainLoop_mono true rest _ (by simp [initCompress])
      · split
        · exact ih _ (by simpa [onRead2_inflateTelnet] using h)
        · exact ih _ (by simpa [onRead2_inflateTelnet] using h)

lemma onRead_plain_eq (oracle : InflateOracle) (st : State) (ga : Bool) (data : List Nat)
    (h1 : st.inflateTelnet = false)
    (h2 : (onReadPlain true st ga data).engine.inflateTelnet = false) :
    onReadInternal true oracle st ga data = onReadPlain true st ga data := by
  by_cases hd : data = []
  · simp [onReadInternal, onReadPlain, hd]
  · have hpe : (onReadPlain true st ga data).engine =
        (onReadLoopPlain true { engine := st, clean := [], ga := ga, flushes := [] }
          data).engine := by
      simp only [onReadPlain]
      rw [if_neg hd]
      split
      · rfl
      · split
        · rfl
        · rfl
    rw [hpe] at h2
    rcases loop_eq_plain oracle data { engine := st, clean := [], ga := ga, flushes := [] }
        h1 with heq | hbad
    · simp only [onReadInternal, onReadPlain]
      rw [if_neg hd, if_neg hd, heq]
    · rw [hbad] at h2
      cases h2

end PlainMode

/-- C7: when the shim is in inflate mode and the streaming inflate finishes
with `Z_NEED_DICT`, `Z_DATA_ERROR`, `Z_MEM_ERROR` or `Z_STREAM_END`, the
engine shuts the stream down (`resetCompress`: `his_enabled[COMPRESS2]`,
`recv_compress` and the inflate-mode flag all cleared) and surfaces
`stream.msg` as the raised error; once the host has caught the error, a
subsequent `on_read` call processes its bytes in plain (non-inflating) mode,
provided that call does not itself renegotiate compression. -/
theorem C7_inflate_error_recovery (oracle : InflateOracle) (r : RunSt)
    (input data2 : List Nat)
    (hinf : r.engine.inflateTelnet = true)
    (hfail : zFailed (oracle r.engine.zcalls input).ret = true)
    (hfeed : (feedBytes true
        { r with engine := { r.engine with zcalls := r.engine.zcalls + 1 } }
        (oracle r.engine.zcalls input).out).engine.fatal = none) :
    (onReadInternalInflate true oracle r input).engine.fatal =
        some (oracle r.engine.zcalls input).msg ∧
    (onReadInternalInflate true oracle r input).engine.inflateTelnet = false ∧
    (onReadInternalInflate true oracle r input).engine.recvdCompress = false ∧
    (onReadInternalInflate true oracle r input).engine.hisOptionState OPT_COMPRESS2 =
        false ∧
    ((onReadPlain true
        { (onReadInternalInflate true oracle r input).engine with fatal := none }
        false data2).engine.inflateTelnet = false →
      onReadInternal true oracle
          { (onReadInternalInflate true oracle r input).engine with fatal := none }
          false data2 =
        onReadPlain true
          { (onReadInternalInflate true oracle r input).engine with fatal := none }
          false data2) := by
  have hq : onReadInternalInflate true oracle r input =
      { feedBytes true { r with engine := { r.engine with zcalls := r.engine.zcalls + 1 } }
          (oracle r.engine.zcalls input).out with
        engine :=
          { resetCompress
              (feedBytes true
                { r with engine := { r.engine with zcalls := r.engine.zcalls + 1 } }
                (oracle r.engine.zcalls input).out).engine with
            fatal := some (oracle r.engine.zcalls input).msg } } := by
    simp [onReadInternalInflate, hfeed, hfail]
  refine ⟨by rw [hq], by rw [hq]; simp [resetCompress], by rw [hq]; simp [resetCompress],
    by rw [hq]; simp [resetCompress, upd], ?_⟩
  intro hpl
  exact onRead_plain_eq oracle _ false data2 (by rw [hq]; simp [resetCompress]) hpl

theorem C7_inflate_error_recovery_witness :
    ((onReadInternalInflate true (fun _ _ => ⟨[], ZRet.dataError, "invalid data"⟩)
        ⟨initCompress (initialState ⟨[], []⟩ [] false 0 0), [], false, []⟩
        [1, 2, 3]).engine.fatal = some "invalid data" ∧
      (onReadInternalInflate true (fun _ _ => ⟨[], ZRet.dataError, "invalid data"⟩)
        ⟨initCompress (initialState ⟨[], []⟩ [] false 0 0), [], false, []⟩
        [1, 2, 3]).engine.inflateTelnet = false ∧
      (onReadInternalInflate true (fun _ _ => ⟨[], ZRet.dataError, "invalid data"⟩)
        ⟨initCompress (initialState ⟨[], []⟩ [] false 0 0), [], false, []⟩
        [1, 2, 3]).engine.recvdCompress = false ∧
      (onReadInternalInflate true (fun _ _ => ⟨[], ZRet.dataError, "invalid data"⟩)
        ⟨initCompress (initialState ⟨[], []⟩ [] false 0 0), [], false, []⟩
        [1, 2, 3]).engine.hisOptionState OPT_COMPRESS2 = false ∧
      ((onReadPlain true
          { (onReadInternalInflate true (fun _ _ => ⟨[], ZRet.dataError, "invalid data"⟩)
              ⟨initCompress (initialState ⟨[], []⟩ [] false 0 0), [], false, []⟩
              [1, 2, 3]).engine with fatal := none }
          false [104, 105]).engine.inflateTelnet = false →
        onReadInternal true (fun _ _ => ⟨[], ZRet.dataError, "invalid data"⟩)
            { (onReadInternalInflate true (fun _ _ => ⟨[], ZRet.dataError, "invalid data"⟩)
                ⟨initCompress (initialState ⟨[], []⟩ [] false 0 0), [], false, []⟩
                [1, 2, 3]).engine with fatal := none }
            false [104, 105] =
          onReadPlain true
            { (onReadInternalInflate true (fun _ _ => ⟨[], ZRet.dataError, "invalid data"⟩)
                ⟨initCompress (initialState ⟨[], []⟩ [] false 0 0), [], false, []⟩
                [1, 2, 3]).engine with fatal := none }
            false [104, 105])) :=
  C7_inflate_error_recovery (fun _ _ => ⟨[], ZRet.dataError, "invalid data"⟩)
    ⟨initCompress (initialState ⟨[], []⟩ [] false 0 0), [], false, []⟩
    [1, 2, 3] [104, 105] rfl rfl rfl



/-- The engine component of a byte step does not depend on the GA-detection
flag, the clean buffer, or the pending-GA value. -/
lemma onRead2_engine_eq (g : Bool) (st : State) (clean : List Nat) (ga : Bool) (c : Nat) :
    (onReadInternal2 g st clean ga c).1 = (onReadInternal2 true st [] false c).1 := by
  cases hst : st.state <;>
    simp only [onReadInternal2, hst, processTelnetCommand] <;>
    repeat' split
  all_goals rfl

/-- A byte step appends to the clean buffer a suffix that does not depend on
the GA-detection flag, the buffer, or the pending-GA value. -/
lemma onRead2_clean_eq (g : Bool) (st : State) (clean : List Nat) (ga : Bool) (c : Nat) :
    (onReadInternal2 g st clean ga c).2.1 =
      clean ++ (onReadInternal2 true st [] false c).2.1 := by
  cases hst : st.state <;>
    simp only [onReadInternal2, hst, processTelnetCommand] <;>
    repeat' split
  all_goals simp

/-- With GA detection disabled, a byte step never raises the pending-GA
value. -/
lemma onRead2_ga_off (st : State) (clean : List Nat) (ga : Bool) (c : Nat) :
    (onReadInternal2 false st clean ga c).2.2 = ga := by
  cases hst : st.state <;>
    simp only [onReadInternal2, hst, processTelnetCommand] <;>
    repeat' split
  all_goals simp_all


/-- Flatten the clean bytes of a flush trace. -/
def flushBytes (fl : List (List Nat × Bool)) : List Nat :=
  (fl.map Prod.fst).flatten

lemma flushBytes_append (a b : List (List Nat × Bool)) :
    flushBytes (a ++ b) = flushBytes a ++ flushBytes b := by
  simp [flushBytes]

lemma C3feed (out : List Nat) : ∀ (st : State) (c1 c2 : List Nat) (g1 : Bool)
    (f1 f2 : List (List Nat × Bool)),
    flushBytes f1 ++ c1 = flushBytes f2 ++ c2 →
    (feedBytes true ⟨st, c1, g1, f1⟩ out).engine =
        (feedBytes false ⟨st, c2, false, f2⟩ out).engine ∧
      flushBytes (feedBytes true ⟨st, c1, g1, f1⟩ out).flushes ++
          (feedBytes true ⟨st, c1, g1, f1⟩ out).clean =
        flushBytes (feedBytes false ⟨st, c2, false, f2⟩ out).flushes ++
          (feedBytes false ⟨st, c2, false, f2⟩ out).clean ∧
      (feedBytes false ⟨st, c2, false, f2⟩ out).ga = false := by
  induction out with
  | nil =>
    intro st c1 c2 g1 f1 f2 hinv
    exact ⟨rfl, hinv, rfl⟩
  | cons c rest ih =>
    intro st c1 c2 g1 f1 f2 hinv
    simp only [feedBytes]
    rw [onRead2_engine_eq true st c1 g1 c, onRead2_engine_eq false st c2 false c,
      onRead2_clean_eq true st c1 g1 c, onRead2_clean_eq false st c2 false c,
      onRead2_ga_off st c2 false c]
    split
    · exact ⟨rfl, hinv, rfl⟩
    · simp only [Bool.false_eq_true, if_false]
      split
      · refine ⟨rfl, ?_, rfl⟩
        simp only [← List.append_assoc, hinv]
      · split
        · refine ih _ [] _ false _ f2 ?_
          rw [flushBytes_append, List.append_nil]
          have h1 : flushBytes [(c1 ++ (onReadInternal2 true st [] false c).2.1, true)] =
              c1 ++ (onReadInternal2 true st [] false c).2.1 := by
            simp [flushBytes]
          rw [h1, ← List.append_assoc, ← List.append_assoc, hinv, List.append_assoc]
        · refine ih _ _ _ _ f1 f2 ?_
          simp only [← List.append_assoc, hinv]


lemma C3inflate (oracle : InflateOracle) (input : List Nat) (st : State)
    (c1 c2 : List Nat) (g1 : Bool) (f1 f2 : List (List Nat × Bool))
    (hinv : flushBytes f1 ++ c1 = flushBytes f2 ++ c2) :
    (onReadInternalInflate true oracle ⟨st, c1, g1, f1⟩ input).engine =
        (onReadInternalInflate false oracle ⟨st, c2, false, f2⟩ input).engine ∧
      flushBytes (onReadInternalInflate true oracle ⟨st, c1, g1, f1⟩ input).flushes ++
          (onReadInternalInflate true oracle ⟨st, c1, g1, f1⟩ input).clean =
        flushBytes (onReadInternalInflate false oracle ⟨st, c2, false, f2⟩ input).flushes ++
          (onReadInternalInflate false oracle ⟨st, c2, false, f2⟩ input).clean ∧
      (onReadInternalInflate false oracle ⟨st, c2, false, f2⟩ input).ga = false := by
  obtain ⟨hE, hF, hG⟩ := C3feed (oracle st.zcalls input).out
    { st with zcalls := st.zcalls + 1 } c1 c2 g1 f1 f2 hinv
  simp only [onReadInternalInflate]
  rw [← hE]
  split
  · exact ⟨hE, hF, hG⟩
  · split
    · refine ⟨by rw [hE], ?_, ?_⟩
      · exact hF
      · exact hG
    · exact ⟨hE, hF, hG⟩

lemma C3loop (oracle : InflateOracle) (data : List Nat) : ∀ (st : State)
    (c1 c2 : List Nat) (g1 : Bool) (f1 f2 : List (List Nat × Bool)),
    flushBytes f1 ++ c1 = flushBytes f2 ++ c2 →
    (onReadLoop true oracle ⟨st, c1, g1, f1⟩ data).engine =
        (onReadLoop false oracle ⟨st, c2, false, f2⟩ data).engine ∧
      flushBytes (onReadLoop true oracle ⟨st, c1, g1, f1⟩ data).flushes ++
          (onReadLoop true oracle ⟨st, c1, g1, f1⟩ data).clean =
        flushBytes (onReadLoop false oracle ⟨st, c2, false, f2⟩ data).flushes ++
          (onReadLoop false oracle ⟨st, c2, false, f2⟩ data).clean ∧
      (onReadLoop false oracle ⟨st, c2, false, f2⟩ data).ga = false := by
  induction data with
  | nil =>
    intro st c1 c2 g1 f1 f2 hinv
    exact ⟨rfl, hinv, rfl⟩
  | cons c rest ih =>
    intro st c1 c2 g1 f1 f2 hinv
    simp only [onReadLoop]
    split
    · exact C3inflate oracle (c :: rest) st c1 c2 g1 f1 f2 hinv
    · rw [onRead2_engine_eq true st c1 g1 c, onRead2_engine_eq false st c2 false c,
        onRead2_clean_eq true st c1 g1 c, onRead2_clean_eq false st c2 false c,
        onRead2_ga_off st c2 false c]
      split
      · exact ⟨rfl, by simp only [← List.append_assoc, hinv], rfl⟩
      · split
        · exact ih _ _ _ _ f1 f2 (by simp only [← List.append_assoc, hinv])
        · simp only [Bool.false_eq_true, if_false]
          split
          · refine ih _ [] _ false _ f2 ?_
            rw [flushBytes_append, List.append_nil]
            have h1 : flushBytes [(c1 ++ (onReadInternal2 true st [] false c).2.1, true)] =
                c1 ++ (onReadInternal2 true st [] false c).2.1 := by
              simp [flushBytes]
            rw [h1, ← List.append_assoc, ← List.append_assoc, hinv, List.append_assoc]
          · exact ih _ _ _ _ f1 f2 (by simp only [← List.append_assoc, hinv])


lemma onReadInternal_engine (g : Bool) (oracle : InflateOracle) (st : State) (ga : Bool)
    (data : List Nat) (hd : data ≠ []) :
    (onReadInternal g oracle st ga data).engine =
      (onReadLoop g oracle ⟨st, [], ga, []⟩ data).engine := by
  simp only [onReadInternal]
  rw [if_neg hd]
  split
  · rfl
  · split
    · rfl
    · rfl

lemma onReadInternal_flushBytes (g : Bool) (oracle : InflateOracle) (st : State) (ga : Bool)
    (data : List Nat) (hd : data ≠ [])
    (hok : (onReadLoop g oracle ⟨st, [], ga, []⟩ data).engine.fatal = none) :
    flushBytes (onReadInternal g oracle st ga data).flushes =
      flushBytes (onReadLoop g oracle ⟨st, [], ga, []⟩ data).flushes ++
        (onReadLoop g oracle ⟨st, [], ga, []⟩ data).clean := by
  simp only [onReadInternal]
  rw [if_neg hd]
  split
  · rename_i hbad
    rw [hok] at hbad
    simp at hbad
  · split
    · rw [flushBytes_append]
      simp [flushBytes]
    · rename_i hne
      simp only [ne_eq, not_not] at hne
      rw [hne]
      simp

/-- C3: for any single inbound read, the concatenation, in order, of all
clean-byte flushes delivered to the host (GA-triggered flushes plus the
end-of-input flush) equals that of the same run with GA detection disabled
(which delivers only the end-of-input flush): receiving GA segments the
clean output but never adds, removes or reorders clean bytes.  The run is
assumed to raise no fatal error (otherwise nothing further is delivered). -/
theorem C3_ga_segmentation (oracle : InflateOracle) (st : State) (data : List Nat)
    (hok : (onReadInternal true oracle st false data).engine.fatal = none) :
    flushBytes (onReadInternal true oracle st false data).flushes =
      flushBytes (onReadInternal false oracle st false data).flushes := by
  by_cases hd : data = []
  · simp [onReadInternal, hd]
  · obtain ⟨hE, hF, hG⟩ := C3loop oracle data st [] [] false [] [] rfl
    have hok1 : (onReadLoop true oracle ⟨st, [], false, []⟩ data).engine.fatal = none := by
      rw [← onReadInternal_engine true oracle st false data hd]
      exact hok
    have hok2 : (onReadLoop false oracle ⟨st, [], false, []⟩ data).engine.fatal = none := by
      rw [← hE]
      exact hok1
    rw [onReadInternal_flushBytes true oracle st false data hd hok1,
      onReadInternal_flushBytes false oracle st false data hd hok2]
    exact hF

theorem C3_ga_segmentation_witness :
    flushBytes (onReadInternal true (fun _ _ => ⟨[], ZRet.zok, ""⟩)
        (initialState ⟨[], []⟩ [] false 0 0) false
        [104, 105, 255, 249, 98, 121, 101]).flushes =
      flushBytes (onReadInternal false (fun _ _ => ⟨[], ZRet.zok, ""⟩)
        (initialState ⟨[], []⟩ [] false 0 0) false
        [104, 105, 255, 249, 98, 121, 101]).flushes :=
  C3_ga_segmentation (fun _ _ => ⟨[], ZRet.zok, ""⟩)
    (initialState ⟨[], []⟩ [] false 0 0) [104, 105, 255, 249, 98, 121, 101] rfl


/-- Every `0xFF` in the list is part of an adjacent doubled pair: the wire
form RFC 855 requires for subnegotiation parameters. -/
inductive Doubled : List Nat → Prop where
  | nil : Doubled []
  | plain (b : Nat) (rest : List Nat) (hb : b ≠ TN_IAC) (h : Doubled rest) :
      Doubled (b :: rest)
  | pair (rest : List Nat) (h : Doubled rest) : Doubled (TN_IAC :: TN_IAC :: rest)

lemma Doubled.append {l1 l2 : List Nat} (h1 : Doubled l1) (h2 : Doubled l2) :
    Doubled (l1 ++ l2) := by
  induction h1 with
  | nil => simpa using h2
  | plain b rest hb _ ih => exact Doubled.plain b _ hb ih
  | pair rest _ ih => exact Doubled.pair _ ih

lemma doubled_addEscaped (b : Nat) : Doubled (addEscaped b) := by
  by_cases hb : b = TN_IAC
  · subst hb
    simp only [addEscaped, if_pos rfl]
    exact Doubled.pair [] Doubled.nil
  · simp only [addEscaped, if_neg hb]
    exact Doubled.plain b [] hb Doubled.nil

lemma doubled_addEscapedBytes (s : List Nat) : Doubled (addEscapedBytes s) := by
  induction s with
  | nil => exact Doubled.nil
  | cons c rest ih =>
    have : addEscapedBytes (c :: rest) = addEscaped c ++ addEscapedBytes rest := rfl
    rw [this]
    exact (doubled_addEscaped c).append ih

lemma doubled_of_no_iac {l : List Nat} (h : ∀ b ∈ l, b ≠ TN_IAC) : Doubled l := by
  induction l with
  | nil => exact Doubled.nil
  | cons c rest ih =>
    exact Doubled.plain c rest (h c (List.mem_cons_self c rest))
      (ih fun b hb => h b (List.mem_cons_of_mem c hb))

/-- Option 255 is never enabled on either side. -/
abbrev NoOpt255 (st : State) : Prop :=
  st.myOptionState 255 = false ∧ st.hisOptionState 255 = false

lemma willSupported_ne255 (o : Nat) (h : willSupported o = true) : o ≠ 255 := by
  intro hc
  subst hc
  exact absurd h (by decide)

lemma doSupported_ne255 (o : Nat) (h : doSupported o = true) : o ≠ 255 := by
  intro hc
  subst hc
  exact absurd h (by decide)

lemma upd_255_false (f : Nat → Bool) (o : Nat) (v : Bool) (hf : f 255 = false)
    (hv : v = false ∨ o ≠ 255) : upd f o v 255 = false := by
  unfold upd
  split
  · rename_i he
    rcases hv with rfl | ho
    · rfl
    · exact (ho he.symm).elim
  · exact hf


lemma doWILL_no255 (st : State) (o : Nat) (h : NoOpt255 st) : NoOpt255 (doWILL st o) := by
  obtain ⟨h1, h2⟩ := h
  simp only [doWILL, sendTelnetOption, sendTerminalTypeRequest, sendRawData]
  repeat' split
  all_goals refine ⟨h1, ?_⟩
  all_goals first
    | exact h2
    | (simp only [upd]
       split
       · rename_i he
         first
           | rfl
           | exact absurd he (by decide)
           | (exfalso
              subst he
              simp_all [willSupported, OPT_SUPPRESS_GA, OPT_STATUS, OPT_TERMINAL_TYPE,
                OPT_NAWS, OPT_ECHO, OPT_CHARSET, OPT_COMPRESS2, OPT_GMCP, NO_ZLIB])
       · exact h2)

lemma doWONT_no255 (st : State) (o : Nat) (h : NoOpt255 st) : NoOpt255 (doWONT st o) := by
  obtain ⟨h1, h2⟩ := h
  simp only [doWONT, sendTelnetOption, sendRawData]
  repeat' split
  all_goals refine ⟨h1, ?_⟩
  all_goals first
    | exact h2
    | (simp only [upd]
       split
       · rfl
       · exact h2)

lemma doSideEffects_myOption (st : State) (o : Nat) :
    (doSideEffects st o).myOptionState = st.myOptionState := by
  simp only [doSideEffects, sendWindowSizeChanged, sendCharsetRequest, sendRawData]
  repeat' split
  all_goals rfl

lemma doSideEffects_hisOption (st : State) (o : Nat) :
    (doSideEffects st o).hisOptionState = st.hisOptionState := by
  simp only [doSideEffects, sendWindowSizeChanged, sendCharsetRequest, sendRawData]
  repeat' split
  all_goals rfl

lemma doDO_no255 (st : State) (o : Nat) (h : NoOpt255 st) : NoOpt255 (doDO st o) := by
  obtain ⟨h1, h2⟩ := h
  simp only [doDO, sendTelnetOption, sendRawData]
  constructor
  · rw [doSideEffects_myOption]
    repeat' split
    all_goals first
      | exact h1
      | (simp only [upd]
         split
         · rename_i he
           first
             | rfl
             | (exfalso
                subst he
                simp_all [doSupported, OPT_SUPPRESS_GA, OPT_STATUS, OPT_TERMINAL_TYPE,
                  OPT_NAWS, OPT_ECHO, OPT_CHARSET, OPT_GMCP])
         · exact h1)
  · rw [doSideEffects_hisOption]
    repeat' split
    all_goals exact h2

lemma doDONT_no255 (st : State) (o : Nat) (h : NoOpt255 st) : NoOpt255 (doDONT st o) := by
  obtain ⟨h1, h2⟩ := h
  simp only [doDONT, sendTelnetOption, sendRawData]
  repeat' split
  all_goals refine ⟨?_, h2⟩
  all_goals first
    | exact h1
    | (simp only [upd]
       split
       · rfl
       · exact h1)

lemma pcSt_no255 (st : State) (cmd : List Nat) (h : NoOpt255 st) :
    NoOpt255 (processTelnetCommandSt st cmd) := by
  obtain ⟨h1, h2⟩ := h
  simp only [processTelnetCommandSt, sendAreYouThere, sendRawData]
  repeat' split
  all_goals first
    | exact ⟨h1, h2⟩
    | exact doWILL_no255 _ _ ⟨h1, h2⟩
    | exact doWONT_no255 _ _ ⟨h1, h2⟩
    | exact doDO_no255 _ _ ⟨h1, h2⟩
    | exact doDONT_no255 _ _ ⟨h1, h2⟩

lemma charsetSubneg_myOption (st : State) (p : List Nat) :
    (charsetSubneg st p).myOptionState = st.myOptionState := by
  simp only [charsetSubneg, sendCharsetAccepted, sendCharsetRejected, sendRawData,
    setEncodingForName]
  repeat' split
  all_goals rfl

lemma charsetSubneg_hisOption (st : State) (p : List Nat) :
    (charsetSubneg st p).hisOptionState = st.hisOptionState := by
  simp only [charsetSubneg, sendCharsetAccepted, sendCharsetRejected, sendRawData,
    setEncodingForName]
  repeat' split
  all_goals rfl

lemma subneg_myOption (st : State) (p : List Nat) :
    (processTelnetSubnegotiation st p).myOptionState = st.myOptionState := by
  simp only [processTelnetSubnegotiation, sendOptionStatus, sendTerminalType, sendRawData]
  repeat' split
  all_goals simp [charsetSubneg_myOption]

lemma subneg_hisOption (st : State) (p : List Nat) :
    (processTelnetSubnegotiation st p).hisOptionState = st.hisOptionState := by
  simp only [processTelnetSubnegotiation, sendOptionStatus, sendTerminalType, sendRawData]
  repeat' split
  all_goals simp [charsetSubneg_hisOption]

lemma onRead2_no255 (g : Bool) (st : State) (clean : List Nat) (ga : Bool) (c : Nat)
    (h : NoOpt255 st) : NoOpt255 (onReadInternal2 g st clean ga c).1 := by
  obtain ⟨h1, h2⟩ := h
  cases hst : st.state <;>
    simp only [onReadInternal2, hst, processTelnetCommand] <;>
    repeat' split
  all_goals first
    | exact ⟨h1, h2⟩
    | exact pcSt_no255 _ _ ⟨h1, h2⟩
    | (constructor
       · rw [subneg_myOption]
         exact h1
       · rw [subneg_hisOption]
         exact h2)


lemma resetCompress_no255 (st : State) (h : NoOpt255 st) : NoOpt255 (resetCompress st) := by
  refine ⟨h.1, ?_⟩
  simp only [resetCompress]
  exact upd_255_false _ _ _ h.2 (Or.inl rfl)

lemma feedBytes_no255 (g : Bool) (out : List Nat) : ∀ r : RunSt,
    NoOpt255 r.engine → NoOpt255 (feedBytes g r out).engine := by
  induction out with
  | nil => exact fun r h => h
  | cons c rest ih =>
    intro r h
    simp only [feedBytes]
    split
    · exact h
    · split
      · exact onRead2_no255 g r.engine r.clean r.ga c h
      · split
        · exact ih _ (onRead2_no255 g r.engine r.clean r.ga c h)
        · exact ih _ (onRead2_no255 g r.engine r.clean r.ga c h)

lemma inflate_no255 (g : Bool) (oracle : InflateOracle) (r : RunSt) (input : List Nat)
    (h : NoOpt255 r.engine) :
    NoOpt255 (onReadInternalInflate g oracle r input).engine := by
  have hf := feedBytes_no255 g (oracle r.engine.zcalls input).out
    { r with engine := { r.engine with zcalls := r.engine.zcalls + 1 } } ⟨h.1, h.2⟩
  simp only [onReadInternalInflate]
  split
  · exact hf
  · split
    · exact ⟨(resetCompress_no255 _ hf).1, (resetCompress_no255 _ hf).2⟩
    · exact hf

lemma onReadLoop_no255 (g : Bool) (oracle : InflateOracle) (data : List Nat) : ∀ r : RunSt,
    NoOpt255 r.engine → NoOpt255 (onReadLoop g oracle r data).engine := by
  induction data with
  | nil => exact fun r h => h
  | cons c rest ih =>
    intro r h
    simp only [onReadLoop]
    split
    · exact inflate_no255 g oracle r (c :: rest) h
    · split
      · exact onRead2_no255 g r.engine r.clean r.ga c h
      · split
        · exact ih _ (onRead2_no255 g r.engine r.clean r.ga c h)
        · split
          · exact ih _ (onRead2_no255 g r.engine r.clean r.ga c h)
          · exact ih _ (onRead2_no255 g r.engine r.clean r.ga c h)

lemma onReadInternal_no255 (g : Bool) (oracle : InflateOracle) (st : State) (ga : Bool)
    (data : List Nat) (h : NoOpt255 st) :
    NoOpt255 (onReadInternal g oracle st ga data).engine := by
  simp only [onReadInternal]
  split
  · exact h
  · split
    · exact onReadLoop_no255 g oracle data _ h
    · split
      · exact onReadLoop_no255 g oracle data _ h
      · exact onReadLoop_no255 g oracle data _ h

/-- A sequence of `on_read` calls from a given engine state, threading the
engine state and the pending-GA member across calls. -/
def runReads (oracle : InflateOracle) (p : State × Bool) : List (List Nat) → State × Bool
  | [] => p
  | d :: rest =>
    runReads oracle
      ((onReadInternal true oracle p.1 p.2 d).engine,
        (onReadInternal true oracle p.1 p.2 d).ga) rest

/-- Engine states reachable from a freshly constructed engine by feeding
inbound bytes (the engine-driven negotiation of the source). -/
def Reachable (st : State) : Prop :=
  ∃ (tc : TextCodec) (tt : List Nat) (dbg : Bool) (x y : Int) (oracle : InflateOracle)
    (chunks : List (List Nat)),
    (runReads oracle (initialState tc tt dbg x y, false) chunks).1 = st

lemma runReads_no255 (oracle : InflateOracle) (chunks : List (List Nat)) :
    ∀ p : State × Bool, NoOpt255 p.1 → NoOpt255 (runReads oracle p chunks).1 := by
  induction chunks with
  | nil => exact fun p h => h
  | cons d rest ih =>
    intro p h
    exact ih _ (onReadInternal_no255 true oracle p.1 p.2 d h)

lemma reachable_no255 (st : State) (h : Reachable st) : NoOpt255 st := by
  obtain ⟨tc, tt, dbg, x, y, oracle, chunks, heq⟩ := h
  rw [← heq]
  exact runReads_no255 oracle chunks _ ⟨rfl, rfl⟩

lemma statusBody_no_iac (st : State) (h : NoOpt255 st) :
    ∀ b ∈ statusBody st, b ≠ TN_IAC := by
  intro b hb
  simp only [statusBody, List.mem_append, List.mem_singleton] at hb
  rcases hb with rfl | hb
  · decide
  · simp only [statusOptsBody, List.mem_flatMap, List.mem_range] at hb
    obtain ⟨i, hi, hbi⟩ := hb
    rw [List.mem_append] at hbi
    rcases hbi with hbi | hbi
    · by_cases hmy : st.myOptionState i = true
      · rw [if_pos hmy] at hbi
        simp only [List.mem_cons, List.mem_singleton, List.not_mem_nil, or_false] at hbi
        rcases hbi with rfl | rfl
        · decide
        · intro hc
          subst hc
          simp only [TN_IAC] at hmy
          rw [h.1] at hmy
          cases hmy
      · rw [if_neg hmy] at hbi
        cases hbi
    · by_cases hhis : st.hisOptionState i = true
      · rw [if_pos hhis] at hbi
        simp only [List.mem_cons, List.mem_singleton, List.not_mem_nil, or_false] at hbi
        rcases hbi with rfl | rfl
        · decide
        · intro hc
          subst hc
          simp only [TN_IAC] at hhis
          rw [h.2] at hhis
          cases hhis
      · rw [if_neg hhis] at hbi
        cases hbi


lemma doubled_clamped (n : Int) : Doubled (addClampedTwoByteEscaped n) := by
  simp only [addClampedTwoByteEscaped]
  exact (doubled_addEscaped _).append (doubled_addEscaped _)

/-- C9: in every subnegotiation the engine sends, the parameter section
between `IAC SB <opt>` and `IAC SE` has every `0xFF` doubled: NAWS, CHARSET
REQUEST, CHARSET ACCEPTED (with its peer-derived charset name), CHARSET
REJECTED, TERMINAL_TYPE IS, TERMINAL_TYPE SEND and GMCP build their
parameters through `addEscaped` (or from constant non-IAC bytes), and the
STATUS IS reply — built with raw appends — never contains a `0xFF` at all in
any reachable option-table state, since option 255 is never enabled on
either side. -/
theorem C9_subneg_param_escaping (x y : Int) (sets : List (List Nat))
    (tt p cs : List Nat) (st : State) (hreach : Reachable st) :
    Doubled (nawsBody x y) ∧ Doubled (charsetReqBody sets) ∧ Doubled (ttypeBody tt) ∧
      Doubled (gmcpBody p) ∧ Doubled (charsetAcceptedBody cs) ∧
      Doubled charsetRejectedBody ∧ Doubled ttypeSendBody ∧
      Doubled (statusBody st) := by
  refine ⟨?_, ?_, ?_, ?_, ?_, ?_, ?_, ?_⟩
  · exact (doubled_clamped x).append (doubled_clamped y)
  · have hfm : ∀ l : List (List Nat),
        Doubled (l.flatMap fun cs => addEscapedBytes [59] ++ addEscapedBytes cs) := by
      intro l
      induction l with
      | nil => exact Doubled.nil
      | cons a rest ih =>
        rw [List.flatMap_cons]
        exact ((doubled_addEscapedBytes [59]).append (doubled_addEscapedBytes a)).append ih
    exact Doubled.plain TNSB_REQUEST _ (by decide) (hfm sets)
  · exact (doubled_addEscaped _).append (doubled_addEscapedBytes tt)
  · exact doubled_addEscapedBytes p
  · exact Doubled.plain TNSB_ACCEPTED _ (by decide) (doubled_addEscapedBytes cs)
  · exact Doubled.plain TNSB_REJECTED _ (by decide) Doubled.nil
  · exact doubled_addEscaped TNSB_SEND
  · exact doubled_of_no_iac (statusBody_no_iac st (reachable_no255 st hreach))

theorem C9_subneg_param_escaping_witness :
    Doubled (nawsBody 80 24) ∧ Doubled (charsetReqBody [[85, 84, 70, 45, 56]]) ∧
      Doubled (ttypeBody [77, 77]) ∧ Doubled (gmcpBody [72, 105]) ∧
      Doubled (charsetAcceptedBody [85, 84, 70, 45, 56]) ∧
      Doubled charsetRejectedBody ∧ Doubled ttypeSendBody ∧
      Doubled (statusBody (initialState ⟨[], []⟩ [] false 0 0)) :=
  C9_subneg_param_escaping 80 24 [[85, 84, 70, 45, 56]] [77, 77] [72, 105]
    [85, 84, 70, 45, 56] (initialState ⟨[], []⟩ [] false 0 0)
    ⟨⟨[], []⟩, [], false, 0, 0, fun _ _ => ⟨[], ZRet.zok, ""⟩, [], rfl⟩

end Telnet
